import Mathlib

/-!
# Verification of the flip_crawler credit-card extraction pipeline

This file gives a shallow embedding, in Lean 4, of the decision logic of the
flip_crawler repository (link classification and prioritization, data-completeness
validation, confidence scoring, listing content filtering, PDF/web fetch retry
loops, and the text normalizer), together with theorems settling the stated
behavioural properties.

Strings are modelled as Lean `String`/`List Char`; JavaScript regular-expression
tests are embedded through a small Brzozowski-derivative matcher over an
explicit regex syntax restricted to the constructs the source actually uses
(literals, the `.` wildcard that excludes newlines, `.?`, `.*`, `\d+`, anchors,
and negative lookaheads of the shape `A(?!.*w)`).  External capabilities
(the HTTP client, the headless browser, the PDF byte decoder, WHATWG URL
parsing) are passed in as explicit oracle functions, exactly at the interface
boundaries the code calls them.
-/

namespace FlipCrawler

/-- JavaScript whitespace (`\s`, `String.prototype.trim`): the ASCII whitespace
characters plus the non-breaking space, BOM and the two Unicode line
separators (the core of the ECMAScript WhiteSpace/LineTerminator sets). -/
def jsWs (c : Char) : Bool :=
  c == ' ' || c == '\t' || c == '\n' || c == '\r' ||
  c == '\x0b' || c == '\x0c' || c.toNat == 0xA0 || c.toNat == 0xFEFF ||
  c.toNat == 0x2028 || c.toNat == 0x2029

/-- `pat.prefixL s`: `pat` is a (character-exact) prefix of `s`. -/
def prefixL : List Char → List Char → Bool
  | [], _ => true
  | _ :: _, [] => false
  | a :: pa, b :: sb => a == b && prefixL pa sb

/-- `isSubL pat s` models JavaScript `s.includes(pat)`. -/
def isSubL (pat : List Char) : List Char → Bool
  | [] => prefixL pat []
  | c :: rest => prefixL pat (c :: rest) || isSubL pat rest

/-- `incl s pat` models `s.includes(pat)` on Lean strings. -/
def incl (s pat : String) : Bool := isSubL pat.data s.data

/-- `s.toLowerCase()` (ASCII-exact, character-wise). -/
def jsToLower (s : String) : String := ⟨s.data.map Char.toLower⟩

/-- Regex syntax: exactly the constructs used by the source's patterns.
`anyc` is the JavaScript `.` (any character except a newline); `digit` is `\d`. -/
inductive RE : Type
  | emp : RE
  | eps : RE
  | chr : Char → RE
  | anyc : RE
  | digit : RE
  | cat : RE → RE → RE
  | alt : RE → RE → RE
  | star : RE → RE
deriving Repr

namespace RE

/-- Does the regex accept the empty string? -/
def nullable : RE → Bool
  | emp => false
  | eps => true
  | chr _ => false
  | anyc => false
  | digit => false
  | cat r1 r2 => nullable r1 && nullable r2
  | alt r1 r2 => nullable r1 || nullable r2
  | star _ => true

/-- Brzozowski derivative of a regex by one character. -/
def deriv : RE → Char → RE
  | emp, _ => emp
  | eps, _ => emp
  | chr c, d => if c == d then eps else emp
  | anyc, d => if d == '\n' then emp else eps
  | digit, d => if d.isDigit then eps else emp
  | cat r1 r2, d =>
    if nullable r1 then alt (cat (deriv r1 d) r2) (deriv r2 d)
    else cat (deriv r1 d) r2
  | alt r1 r2, d => alt (deriv r1 d) (deriv r2 d)
  | star r, d => cat (deriv r d) (star r)

/-- Whole-string match (the regex anchored at both ends). -/
def matchesL (r : RE) (s : List Char) : Bool :=
  nullable (s.foldl deriv r)

/-- Literal string as a regex. -/
def lit (s : String) : RE :=
  s.data.foldr (fun c r => cat (chr c) r) eps

/-- `x?` (zero or one occurrence). -/
def opt (r : RE) : RE := alt eps r

/-- `x+` (one or more occurrences). -/
def plus (r : RE) : RE := cat r (star r)

/-- The pattern fragment `.?`. -/
def dotOpt : RE := opt anyc

/-- The pattern fragment `.*`. -/
def dotStar : RE := star anyc

/-- `/r/.test(s)`: unanchored search, i.e. `.*r.*` matched against all of `s`. -/
def search (r : RE) (s : List Char) : Bool :=
  matchesL (cat dotStar (cat r dotStar)) s

/-- `/^r/.test(s)`: the regex anchored at the start only. -/
def searchStart (r : RE) (s : List Char) : Bool :=
  matchesL (cat r dotStar) s

/-- `/^r$/.test(s)`: the regex anchored at both ends. -/
def searchExact (r : RE) (s : List Char) : Bool :=
  matchesL r s

/-- `/a(?!.*w)/.test(s)`: there is a match of `a` ending at some position `j`
such that `w` does not occur after `j` on the same line (JavaScript `.` does
not cross newlines, so `.*w` reaches only up to the next newline). -/
def negLA (a : RE) (w : String) (s : List Char) : Bool :=
  (List.range (s.length + 1)).any fun i =>
    (List.range (s.length + 1 - i)).any fun len =>
      matchesL a ((s.drop i).take len) &&
      !(isSubL w.data (((s.drop i).drop len).takeWhile fun c => c != '\n'))

end RE

/-! ## Link Classifier & Prioritizer (`src/linkProcessor.js`) -/

namespace LinkProcessor

open RE

/-- `s.includes(p)` with the haystack first, mirroring the JavaScript call shape. -/
def has (s : List Char) (p : String) : Bool := isSubL p.data s

/-- The pattern `a.?b`. -/
def gapOpt (a b : String) : RE := cat (lit a) (cat dotOpt (lit b))

/-- The pattern `a.?b.?c`. -/
def gapOpt3 (a b c : String) : RE := cat (lit a) (cat dotOpt (cat (lit b) (cat dotOpt (lit c))))

/-- The pattern `a.*b`. -/
def gapStar (a b : String) : RE := cat (lit a) (cat dotStar (lit b))

/-- The pattern `a.*b.*c`. -/
def gapStar3 (a b c : String) : RE := cat (lit a) (cat dotStar (cat (lit b) (cat dotStar (lit c))))

/-- The `irrelevantPatterns` array of `isRelevantLink`, in source order; each
entry embeds `.test` of that regex (its inputs are already lowercased, so the
`i` flags are no-ops). -/
def irrelevantPatterns : List (List Char → Bool) := [
  searchExact (lit "home"), searchExact (lit "contact"), searchExact (lit "about"),
  searchStart (lit "privacy"), searchExact (lit "sitemap"),
  searchExact (lit "help"), searchExact (lit "support"), searchStart (lit "customer"),
  searchExact (lit "faq"),
  search (lit "netbanking"), search (gapOpt "net" "banking"), search (gapOpt "online" "banking"),
  search (gapOpt "digital" "banking"),
  search (gapOpt "business" "banking"), search (lit "sme"), search (lit "corporate"),
  search (lit "wealth"),
  negLA (lit "loan") "card", search (lit "deposit"), search (lit "investment"),
  search (gapOpt "mutual" "fund"),
  negLA (lit "insurance") "card", search (gapOpt "life" "insurance"),
  search (gapOpt "health" "insurance"),
  search (gapOpt "vehicle" "insurance"), search (gapOpt "travel" "insurance"),
  search (gapOpt "cyber" "insurance"),
  search (gapOpt "personal" "accident"), search (lit "mediclaim"),
  search (gapOpt "critical" "illness"),
  search (gapOpt "bill" "payment"), search (gapOpt "premium" "payment"),
  search (lit "utility"), search (lit "electricity"),
  search (gapOpt "gas" "bill"), search (gapOpt "water" "bill"),
  search (gapOpt "mobile" "recharge"), search (lit "dth"),
  search (lit "broadband"), search (lit "landline"), search (lit "donation"),
  search (lit "religious"),
  search (lit "login"), search (gapOpt "sign" "in"), search (gapOpt "sign" "up"),
  search (lit "register"), search (gapOpt "forgot" "password"),
  search (gapOpt "reset" "password"), search (lit "otp"), search (lit "verify"),
  search (lit "activate"), search (lit "enroll"),
  search (lit "netsafe"), search (gapOpt3 "verified" "by" "visa"),
  search (gapOpt "mastercard" "securecode"),
  search (gapOpt "3d" "secure"), search (lit "fraud"), negLA (lit "security") "card",
  search (lit "alert"),
  negLA (lit "statement") "card", search (lit "passbook"), search (lit "cheque"),
  search (lit "dd"),
  search (gapOpt "learning" "centre"), search (lit "education"), search (lit "tutorial"),
  negLA (lit "guide") "card",
  search (lit "calculator"), search (gapOpt "emi" "calculator"),
  search (gapOpt "loan" "calculator"),
  negLA (lit "blog") "card", search (lit "news"), search (lit "press"), search (lit "media"),
  search (lit "facebook.com"), search (lit "twitter.com"), search (lit "instagram.com"),
  search (lit "linkedin.com"), search (lit "youtube.com"), search (lit "whatsapp"),
  search (lit "telegram"),
  search (lit "career"), search (lit "job"), search (lit "investor"), search (lit "csr"),
  search (lit "sustainability"),
  negLA (lit "prepaid") "credit", search (gapOpt "gift" "card"), search (gapOpt "forex" "card"),
  search (gapOpt "financial" "planning"), search (lit "retirement"), search (lit "pension"),
  search (lit "tax"),
  search (gapOpt "goal" "planning"), search (gapOpt "save" "money"),
  search (gapOpt "emergency" "fund"),
  negLA (gapOpt "mobile" "app") "card", search (gapOpt "download" "app"),
  search (gapOpt "app" "store"), search (gapOpt "play" "store")]

/-- The `strictRelevantPatterns` array of `isRelevantLink`, in source order. -/
def strictRelevantPatterns : List (List Char → Bool) := [
  search (gapOpt "credit" "card"), search (lit "pixel"), search (gapOpt "card" "benefit"),
  search (gapOpt "card" "offer"), search (gapOpt "card" "reward"),
  search (gapOpt "card" "perk"), search (gapOpt "card" "feature"),
  search (gapOpt "card" "advantage"), search (lit "cardholder"),
  search (lit "cashback"), search (gapOpt "cash" "back"), search (gapOpt "reward" "point"),
  search (lit "redeem"), search (gapOpt "earn" "point"),
  search (lit "loyalty"), search (lit "milestone"), search (lit "accelerated"),
  search (gapOpt "bonus" "point"),
  search (lit "offer"), search (lit "deal"), search (lit "discount"), search (lit "saving"),
  search (lit "promo"), search (lit "campaign"),
  search (cat (lit "flat") (cat dotStar (chr '%'))),
  search (cat (plus digit) (cat (chr '%') (cat dotStar (lit "off")))),
  search (cat (plus digit) (cat (chr '%') (cat dotStar (lit "cashback")))),
  search (cat (plus digit) (cat (chr 'x') (cat dotStar (lit "point")))),
  search (lit "partner"), search (lit "merchant"), search (lit "smartbuy"),
  search (gapOpt "smart" "buy"),
  search (lit "dining"), search (lit "restaurant"), search (lit "food"), search (lit "travel"),
  search (lit "hotel"), search (lit "flight"),
  search (lit "shopping"), search (lit "fashion"), search (lit "grocery"), search (lit "fuel"),
  search (lit "petrol"), search (gapOpt "gas" "station"),
  search (lit "entertainment"), search (lit "movie"), search (lit "bookmyshow"),
  search (lit "zomato"), search (lit "swiggy"),
  search (lit "makemytrip"), search (lit "uber"), search (lit "ola"), search (lit "amazon"),
  search (lit "flipkart"),
  search (lit "myntra"), search (lit "nykaa"), search (lit "croma"), search (lit "reliance"),
  search (lit "payzapp"), search (gapOpt "pay" "zapp"), search (gapOpt "my" "card"),
  search (gapOpt "card" "control"),
  search (lit "emi"), search (lit "installment"), search (gapOpt3 "pay" "in" "part"),
  search (gapOpt3 "convert" "to" "emi"),
  search (lit "contactless"), search (gapOpt "tap" "pay"), search (gapOpt "scan" "pay"),
  search (gapStar "upi" "card"),
  search (gapStar "terms" "card"), search (gapStar "condition" "card"),
  search (gapStar "fee" "card"), search (gapStar "charge" "card"),
  search (gapStar "eligibility" "card"), search (gapStar "apply" "card"),
  search (lit ".pdf"), search (gapStar "document" "card"), search (gapStar "brochure" "card"),
  search (gapStar "guide" "card"),
  search (gapStar3 "click" "here" "card"), search (gapStar3 "know" "more" "card"),
  search (gapStar3 "learn" "more" "card"),
  search (gapStar "detail" "card"), search (gapStar "feature" "card"),
  search (gapStar "benefit" "card")]

/-- `patterns.some(p => p.test(textLower) || p.test(hrefLower))`. -/
def testAny (pats : List (List Char → Bool)) (textL hrefL : List Char) : Bool :=
  pats.any fun p => p textL || p hrefL

/-- The PDF-indicator disjunction at the top of `isRelevantLink`
(`pdfIndicators.some(indicator => indicator)`). -/
def pdfIndicatorsRelevant (textL hrefL : List Char) : Bool :=
  has hrefL ".pdf" ||
  has hrefL "/repositories/" ||
  has hrefL "?path=" ||
  has textL "pdf" ||
  (has textL "terms" && has textL "condition") ||
  (has textL "click here" && (has textL "terms" || has textL "condition" || has textL "faq")) ||
  has textL "detailed terms" ||
  has textL "t&c" ||
  has textL "tnc"

/-- Models `getDomain`, i.e. `new URL(url).hostname` with `catch { return null }`:
for an absolute URL, the host is the run between the first `://` and the next
`/`, `?`, `#` or `:`; `none` models the parse throwing (no scheme separator).
Simplified model of the WHATWG URL parser, adequate for http(s) URLs. -/
def afterFirst (pat : List Char) : List Char → Option (List Char)
  | [] => if prefixL pat [] then some [] else none
  | c :: rest =>
    if prefixL pat (c :: rest) then some ((c :: rest).drop pat.length)
    else afterFirst pat rest

/-- See `afterFirst`. -/
def getDomain (url : String) : Option String :=
  match afterFirst "://".data url.data with
  | some rest => some ⟨rest.takeWhile fun c => !(c == '/' || c == '?' || c == '#' || c == ':')⟩
  | none => none

/-- The `knownCardDomains` allow-list. -/
def knownCardDomains : List String :=
  ["hdfcbank.com", "smartbuy.hdfcbank.com", "offers.hdfcbank.com",
   "mycards.hdfcbank.com", "pixel.hdfcbank.com"]

/-- `isRelevantLink(text, href, baseUrl)`: PDF indicators first (short-circuit to
`true`), then the irrelevant-pattern rejection, then the strict relevant-pattern
requirement, then the domain policy. -/
def isRelevantLink (text href baseUrl : String) : Bool :=
  let textL := (jsToLower text).data
  let hrefL := (jsToLower href).data
  if pdfIndicatorsRelevant textL hrefL then true
  else if testAny irrelevantPatterns textL hrefL then false
  else if testAny strictRelevantPatterns textL hrefL then
    let sameDomain := getDomain href == getDomain baseUrl
    let isPdf := has hrefL ".pdf" || has hrefL "repositories"
    let isCardDomain := knownCardDomains.any fun d => has hrefL d
    sameDomain || isPdf || isCardDomain
  else false

/-- `classifyLink(href, text)`: ordered category checks, PDF indicators first. -/
def classifyLink (href text : String) : String :=
  let hrefL := (jsToLower href).data
  let textL := (jsToLower text).data
  if has hrefL ".pdf" || has hrefL "/repositories/" || has hrefL "?path=" ||
     has textL "pdf" ||
     ((has textL "click here" || has textL "click") &&
      (has textL "terms" || has textL "condition" || has textL "faq")) ||
     has textL "detailed terms" || has textL "t&c" || has textL "tnc" then "pdf"
  else if (has textL "term" || has textL "condition" || has textL "faq") &&
          (has textL "card" || has hrefL "card") then "terms"
  else if (has textL "offer" || has textL "deal" || has textL "promo") &&
          (has textL "card" || has hrefL "card" || has hrefL "smartbuy") then "offers"
  else if (has textL "reward" || has textL "point" || has textL "cashback" ||
           has textL "benefit" || has textL "perk") &&
          (has textL "card" || has hrefL "card") then "rewards"
  else if has textL "partner" || has textL "merchant" || has hrefL "smartbuy" ||
          has textL "dining" || has textL "travel" || has textL "shopping" then "partnerships"
  else if has textL "card" && (has textL "feature" || has textL "control" ||
          has textL "manage" || has textL "payzapp" || has textL "emi") then "card_features"
  else if has textL "pixel" && has textL "card" then "general"
  else "general"

/-- A relevant link as built by `extractLinks` (a `LinkCandidate`). -/
structure LinkC where
  url : String
  text : String
  title : String
  originalHref : String
  type : String
deriving Repr, DecidableEq

/-- The `priority` category→weight table of `prioritizeLinks`; an unknown
category weighs `0` (the `priority[type] || 0` fallback). -/
def priority (t : String) : Nat :=
  if t == "pdf" then 10
  else if t == "terms" then 9
  else if t == "benefits" then 8
  else if t == "offers" then 8
  else if t == "rewards" then 7
  else if t == "card_features" then 6
  else if t == "partnerships" then 5
  else if t == "general" then 3
  else 0

/-- The comparator `(a, b) => (priority[b.type]||0) - (priority[a.type]||0)`
of `prioritizeLinks`, as the relation "`a` sorts no later than `b`". -/
def linkGE (a b : LinkC) : Prop := priority b.type ≤ priority a.type

instance : DecidableRel linkGE := fun _ _ => inferInstanceAs (Decidable (_ ≤ _))

instance : IsTotal LinkC linkGE := ⟨fun _ _ => (le_total _ _).symm⟩

instance : IsTrans LinkC linkGE := ⟨fun _ _ _ h1 h2 => le_trans h2 h1⟩

/-- `prioritizeLinks(links)`: `links.sort((a,b) => (priority[b.type]||0) -
(priority[a.type]||0))`.  `Array.prototype.sort` is stable, and this comparator
is consistent, so the result is the stable descending sort by `priority`;
embedded as Mathlib's stable `insertionSort`. -/
def prioritizeLinks (links : List LinkC) : List LinkC :=
  links.insertionSort linkGE

/-- A `{text, html}` content block. -/
structure ContentBlock where
  text : String
  html : Option String
deriving Repr, DecidableEq

/-- `Utils.truncateText(text, maxLength)`. -/
def truncateText (text : String) (maxLength : Nat) : String :=
  if text.length ≤ maxLength then text else text.take maxLength ++ "..."

/-- The value returned by `extractPDFContent` (always a value, never a throw:
the outer `catch` converts any failure into `{content:null, summary}`). -/
structure PdfExtract where
  content : Option ContentBlock
  summary : String
deriving Repr, DecidableEq

/-- First successful element of the `urlsToTry` loop, `none` if every
attempt threw (the loop then falls through to
`throw new Error('All PDF extraction attempts failed')`). -/
def firstOkList : List (Except String α) → Option α
  | [] => none
  | Except.ok a :: _ => some a
  | Except.error _ :: rest => firstOkList rest

/-- `extractPDFContent(url)` of `linkProcessor.js`.

* `fetchParse url` is the oracle for one `axios.get` + `pdfParse` +
  paragraph-cleanup round on one candidate URL: either the cleaned paragraph
  list (`≤ 50` paragraphs, each `> 20` chars — enforced by the code the oracle
  stands for) or the thrown error's message.
* `repoConvert url` models `new URL(url).searchParams.get('path')` plus
  `decodeURIComponent` (the WHATWG URL capability): the decoded `path`
  parameter, `none` when parsing throws or the parameter is absent.

Every error path is caught internally: the function always returns a
`PdfExtract`; on total failure the summary carries the fixed
`'All PDF extraction attempts failed'` message of the throw that the outer
catch receives. -/
def extractPDFContent (fetchParse : String → Except String (List String))
    (repoConvert : String → Option String) (url : String) : PdfExtract :=
  let finalUrl :=
    if incl url "/content/bbp/repositories/" && incl url "path=" then
      match repoConvert url with
      | some p => "https://www.hdfcbank.com" ++ p
      | none => url
    else url
  let urlsToTry := if finalUrl == url then [url] else [url, finalUrl]
  match firstOkList (urlsToTry.map fetchParse) with
  | some paragraphs =>
    { content := some { text := String.intercalate "\n" paragraphs, html := none },
      summary := "PDF: " ++
        (match paragraphs.head? with
         | some p => p.take 200
         | none => "undefined") ++ "..." }
  | none =>
    { content := none,
      summary := "PDF extraction failed: All PDF extraction attempts failed" }

/-- The value returned by the `linkProcessor.js` `extractWebContent` (all of
whose internals are the headless-browser capability, so it is an oracle here):
`{success:true, content}` or `{success:false, error}`. -/
structure WebExtract where
  success : Bool
  content : Option ContentBlock
  error : Option String
deriving Repr, DecidableEq

/-- `createSummary(content)`. -/
def createSummary (w : WebExtract) : String :=
  match w.content with
  | some cb => "Content: " ++ truncateText cb.text 200
  | none => "No content summary available"

/-- A `ProcessedLink`: the link plus fetched content and summary. -/
structure ProcessedLink where
  url : String
  text : String
  title : String
  originalHref : String
  type : String
  content : Option ContentBlock
  summary : String
deriving Repr, DecidableEq

/-- A failed-link record `{url, type, error, text}`. -/
structure FailedLink where
  url : String
  type : String
  error : Option String
  text : String
deriving Repr, DecidableEq

/-- The mutable state of the `processLinks` loop (`this.processedUrls`,
`processedLinks`, `failedLinks`, `successCount`). -/
structure ProcState where
  processedUrls : List String
  processedLinks : List ProcessedLink
  failedLinks : List FailedLink
  successCount : Nat
deriving Repr, DecidableEq

/-- The fresh state (`new LinkProcessor`). -/
def initState : ProcState := ⟨[], [], [], 0⟩

/-- The processed-link record pushed by the PDF branch of `processLinks`. -/
def pdfEntry (link : LinkC) (pdfContent : PdfExtract) : ProcessedLink :=
  { url := link.url, text := link.text, title := link.title,
    originalHref := link.originalHref, type := link.type,
    content := pdfContent.content, summary := pdfContent.summary }

/-- The processed-link record pushed by the web branch of `processLinks`. -/
def webEntry (link : LinkC) (w : WebExtract) : ProcessedLink :=
  { url := link.url, text := link.text, title := link.title,
    originalHref := link.originalHref, type := link.type,
    content := w.content, summary := createSummary w }

/-- One iteration of the `processLinks` loop: skip already-seen URLs, then
either the PDF branch (always a success push — `extractPDFContent` cannot
throw) or the web branch (push to `processedLinks` or `failedLinks` according
to `webContent.success`).  `pdf`/`web` are the content extractors. -/
def processOne (pdf : String → PdfExtract) (web : String → WebExtract)
    (st : ProcState) (link : LinkC) : ProcState :=
  if st.processedUrls.contains link.url then st
  else
    let st1 := { st with processedUrls := st.processedUrls ++ [link.url] }
    if link.type == "pdf" then
      { st1 with processedLinks := st1.processedLinks ++ [pdfEntry link (pdf link.url)],
                 successCount := st1.successCount + 1 }
    else
      let w := web link.url
      if w.success then
        { st1 with processedLinks := st1.processedLinks ++ [webEntry link w],
                   successCount := st1.successCount + 1 }
      else
        { st1 with failedLinks := st1.failedLinks ++
            [{ url := link.url, type := link.type, error := w.error, text := link.text }] }

/-- `processLinks(links)`: the sequential loop over all links. -/
def processLinks (pdf : String → PdfExtract) (web : String → WebExtract)
    (st : ProcState) (links : List LinkC) : ProcState :=
  links.foldl (processOne pdf web) st

end LinkProcessor

/-! ## The extraction record consumed by `isDataComplete` and
`calculateConfidenceScore` (the parsed model-output JSON).  Every field the
JavaScript reads through optional chaining is an `Option`. -/

/-- `data.card`. -/
structure CardIdent where
  name : Option String
  bank : Option String
deriving Repr, DecidableEq

/-- `data.rewards.earning`. -/
structure Earning where
  categories : Option (List String)
deriving Repr, DecidableEq

/-- `data.rewards`. -/
structure RewardsData where
  program : Option String
  type : Option String
  earning : Option Earning
  redemption : Option (List String)
deriving Repr, DecidableEq

/-- The extraction record (`data`). -/
structure CardData where
  card : Option CardIdent
  rewards : Option RewardsData
  benefits : Option (List String)
  current_offers : Option (List String)
  perks : Option (List String)
  partnerships : Option (List String)
deriving Repr, DecidableEq

/-- JavaScript truthiness of a possibly-absent string (`!!x`): present and
non-empty. -/
def truthyStr : Option String → Bool
  | none => false
  | some s => !s.isEmpty

/-- `(x?.length || 0)` for a possibly-absent array. -/
def optListLen (o : Option (List String)) : Nat := (o.getD []).length

/-- `data.card?.name`. -/
def cardName (d : CardData) : Option String := d.card.bind CardIdent.name

/-- `data.card?.bank`. -/
def cardBank (d : CardData) : Option String := d.card.bind CardIdent.bank

/-- `data.rewards?.program`. -/
def rewardsProgram (d : CardData) : Option String := d.rewards.bind RewardsData.program

/-- `data.rewards?.type`. -/
def rewardsType (d : CardData) : Option String := d.rewards.bind RewardsData.type

/-- `data.rewards?.earning?.categories`. -/
def earningCategories (d : CardData) : Option (List String) :=
  (d.rewards.bind RewardsData.earning).bind Earning.categories

/-- `data.rewards?.redemption`. -/
def rewardsRedemption (d : CardData) : Option (List String) :=
  d.rewards.bind RewardsData.redemption

/-! ## Extraction Orchestrator validation (`src/crawler.js`) -/

namespace Crawler

/-- `/unknown|not found|error/i.test(s)`: case-insensitive search for any of
the three placeholder words (an unanchored alternation of literals). -/
def placeholderTest (s : String) : Bool :=
  let l := jsToLower s
  incl l "unknown" || incl l "not found" || incl l "error"

/-- The `namePresent` / `bankPresent` conjunction of `isDataComplete`:
`!!x && x !== 'Not found' && !placeholder.test(x)`. -/
def strPresent (o : Option String) : Bool :=
  match o with
  | none => false
  | some s => !s.isEmpty && s != "Not found" && !placeholderTest s

/-- `isDataComplete(data)` for web pages.  The surrounding `try/catch`
(returning `false` on a thrown error) has no counterpart here: every access
the body performs is optional-chained, so the model is total by construction. -/
def isDataComplete (d : CardData) : Bool :=
  let namePresent := strPresent (cardName d)
  let bankPresent := strPresent (cardBank d)
  let hasBenefits := optListLen d.benefits > 0
  let hasOffers := optListLen d.current_offers > 0
  let hasPerks := optListLen d.perks > 0
  let hasEarnCats := optListLen (earningCategories d) > 0
  namePresent && bankPresent && (hasBenefits || hasOffers || hasPerks || hasEarnCats)

end Crawler

/-! ## Listing Resolver content filter and confidence scores
(`src/aiProcessor.js`, two concatenated `AIProcessor` revisions) -/

namespace AIProcessor

/-- One step of the whitespace-run replacement: the `Bool` in the accumulator
records whether the already-processed suffix starts inside a whitespace run. -/
def wsRunsStep (r c : Char) (acc : List Char × Bool) : List Char × Bool :=
  if jsWs c then
    if acc.2 then acc else (r :: acc.1, true)
  else (c :: acc.1, false)

/-- `pattern.replace(/\s+/g, '-')` generalized: each maximal whitespace run
becomes one copy of `r`. -/
def wsRunsTo (r : Char) (s : List Char) : List Char :=
  (s.foldr (wsRunsStep r) (([] : List Char), false)).1

/-- A model-proposed card candidate `{name, url, description}`. -/
structure CardCandidate where
  url : Option String
  name : Option String
  description : Option String
deriving Repr, DecidableEq

/-- The `excludePatterns` array of `isValidCreditCard`, in source order. -/
def excludePatterns : List String :=
  ["business", "corporate", "commercial", "enterprise", "debit", "prepaid",
   "gift-card", "forex", "travel-card", "salary-account", "savings-account",
   "loan", "insurance", "mutual-fund", "investment"]

/-- The `includePatterns` array of `isValidCreditCard`, in source order. -/
def includePatterns : List String :=
  ["credit-card", "credit card", "creditcard", "rewards", "cashback",
   "points", "platinum", "gold", "premium", "prime", "elite"]

/-- `excludePatterns.some(p => url.includes(p) || name.includes(p) ||
description.includes(p))` on the lowercased fields (`description || ''`). -/
def shouldExclude (c : CardCandidate) : Bool :=
  let url := jsToLower (c.url.getD "")
  let name := jsToLower (c.name.getD "")
  let description := jsToLower (c.description.getD "")
  excludePatterns.any fun p => incl url p || incl name p || incl description p

/-- `includePatterns.some(p => url.includes(p.replace(/\s+/g,'-')) ||
name.includes(p) || description.includes(p))` on the lowercased fields. -/
def hasIncludePattern (c : CardCandidate) : Bool :=
  let url := jsToLower (c.url.getD "")
  let name := jsToLower (c.name.getD "")
  let description := jsToLower (c.description.getD "")
  includePatterns.any fun p =>
    incl url ⟨wsRunsTo '-' p.data⟩ || incl name p || incl description p

/-- `isValidCreditCard(card)`: missing url/name, then the exclusion tokens,
then the default-deny inclusion requirement. -/
def isValidCreditCard (c : CardCandidate) : Bool :=
  if !truthyStr c.url || !truthyStr c.name then false
  else if shouldExclude c then false
  else if !hasIncludePattern c then false
  else true

/-- JavaScript `Math.round` (round half toward positive infinity). -/
def mathRound (q : ℚ) : ℤ := ⌊q + 1 / 2⌋

/-- The `score` accumulator of the second (single-card) revision's
`calculateConfidenceScore`: a weighted presence sum over ten signals. -/
def confScore (d : CardData) : ℕ :=
  (if truthyStr (cardName d) then 8 else 0) +
  (if truthyStr (cardBank d) then 7 else 0) +
  (if truthyStr (rewardsProgram d) then 5 else 0) +
  (if truthyStr (rewardsType d) then 5 else 0) +
  (if optListLen (earningCategories d) > 0 then 10 else 0) +
  (if optListLen (rewardsRedemption d) > 0 then 5 else 0) +
  (if optListLen d.benefits > 0 then 25 else 0) +
  (if optListLen d.current_offers > 0 then 20 else 0) +
  (if optListLen d.perks > 0 then 10 else 0) +
  (if optListLen d.partnerships > 0 then 5 else 0)

/-- The `maxScore` accumulator of the same method
(`15 + 25 + 25 + 20 + 10 + 5`). -/
def confMaxScore : ℕ := 15 + 25 + 25 + 20 + 10 + 5

/-- `calculateConfidenceScore(data)` of the second (single-card) `AIProcessor`
revision: `Math.round((score / maxScore) * 100) / 100`. -/
def calculateConfidenceScore (d : CardData) : ℚ :=
  (mathRound ((confScore d : ℚ) / (confMaxScore : ℚ) * 100) : ℚ) / 100

/-- The `score` accumulator of the first (listing) revision's
`calculateConfidenceScore`: five 20-point signals. -/
def confScoreListing (d : CardData) : ℕ :=
  (if truthyStr (cardName d) then 20 else 0) +
  (if truthyStr (cardBank d) then 20 else 0) +
  (if optListLen (earningCategories d) > 0 then 20 else 0) +
  (if optListLen d.benefits > 0 then 20 else 0) +
  (if optListLen d.current_offers > 0 then 20 else 0)

/-- `calculateConfidenceScore(data)` of the first (listing) `AIProcessor`
revision: `Math.round(score / 100)`. -/
def calculateConfidenceScoreListing (d : CardData) : ℚ :=
  (mathRound ((confScoreListing d : ℚ) / 100) : ℚ)

end AIProcessor

/-! ## Content Fetcher retry loops (`fetcher.js`, `ContentExtractor`) -/

namespace Fetcher

/-- A `PageContent` as returned by `ContentExtractor` (`content` is the
`{text, html}` block, `none` when absent). -/
structure PageContent where
  url : String
  title : Option String
  content : Option LinkProcessor.ContentBlock
  links : List String
  success : Bool
  contentType : String
  error : Option String
deriving Repr, DecidableEq

/-- What one successful `axios.get` + `pdfParse` + cleanup round yields: the
cleaned text, the derived title (metadata → first line → host fallback) and
the page count.  The production of this value is the HTTP/PDF capability. -/
structure PdfDoc where
  text : String
  title : String
  pages : Nat
deriving Repr, DecidableEq

/-- What one successful browser navigation (`puppeteer.launch` +
`navigateWithFallbacks`, all external/strategy plumbing) yields. -/
structure WebDoc where
  title : Option String
  content : LinkProcessor.ContentBlock
  links : List String
deriving Repr, DecidableEq

/-- The success-shaped PDF `PageContent` (`success:true`, `extractionError:null`). -/
def mkPdfSuccess (url : String) (d : PdfDoc) : PageContent :=
  { url := url, title := some d.title, content := some ⟨d.text, none⟩,
    links := [], success := true, contentType := "pdf", error := none }

/-- The failure-shaped PDF `PageContent` returned after exhausting retries. -/
def mkPdfFailure (url : String) (e : String) : PageContent :=
  { url := url, title := some "PDF Extraction Failed", content := some ⟨"", none⟩,
    links := [], success := false, contentType := "pdf", error := some e }

/-- The success-shaped web `PageContent` (`{...result, contentType:'web'}`). -/
def mkWebSuccess (url : String) (d : WebDoc) : PageContent :=
  { url := url, title := d.title, content := some d.content,
    links := d.links, success := true, contentType := "web", error := none }

/-- The failure-shaped web `PageContent` returned after exhausting retries. -/
def mkWebFailure (url : String) (e : String) : PageContent :=
  { url := url, title := none, content := none,
    links := [], success := false, contentType := "web", error := some e }

/-- The shared `maxRetries` bound of both retry loops. -/
def maxRetries : Nat := 3

/-- The `while (retryCount < maxRetries) { try … } catch { retryCount++;
retry or return failure }` loop shared by `extractPdfContent` and
`extractWebContent`: attempt `i` succeeding returns the success shape; the
last attempt failing returns the failure shape carrying that attempt's error
message.  (`fuel = 0` is unreachable from the `maxRetries` entry point.) -/
def retryLoop (attempt : Nat → Except String α) (ok : α → PageContent)
    (fail : String → PageContent) : Nat → Nat → PageContent
  | _, 0 => fail ""
  | i, fuel + 1 =>
    match attempt i with
    | Except.ok a => ok a
    | Except.error e => if fuel == 0 then fail e else retryLoop attempt ok fail (i + 1) fuel

/-- One whole attempt of the `extractPdfContent` retry body: repository-URL
conversion, then the `urlsToTry` loop (first success wins), then
`throw new Error('All PDF extraction attempts failed')` if every URL failed.
`fetchParse i u` is the oracle for downloading and decoding URL `u` during
attempt `i`; `repoConvert` models the `searchParams.get('path')` +
`decodeURIComponent` step of the URL capability. -/
def pdfAttempt (fetchParse : Nat → String → Except String PdfDoc)
    (repoConvert : String → Option String) (url : String) (i : Nat) :
    Except String PdfDoc :=
  let finalUrl :=
    if incl url "/content/bbp/repositories/" && incl url "path=" then
      match repoConvert url with
      | some p => "https://www.hdfcbank.com" ++ p
      | none => url
    else url
  let urlsToTry := if finalUrl == url then [url] else [url, finalUrl]
  match LinkProcessor.firstOkList (urlsToTry.map (fetchParse i)) with
  | some d => Except.ok d
  | none => Except.error "All PDF extraction attempts failed"

/-- `extractPdfContent(url)`: the retry loop entered with `retryCount = 0`. -/
def extractPdfContent (fetchParse : Nat → String → Except String PdfDoc)
    (repoConvert : String → Option String) (url : String) : PageContent :=
  retryLoop (pdfAttempt fetchParse repoConvert url) (mkPdfSuccess url)
    (mkPdfFailure url) 0 maxRetries

/-- `extractWebContent(url)`: the retry loop entered with `retryCount = 0`;
`navigate i` is the oracle for one browser-launch + `navigateWithFallbacks`
round (its strategy ladder included), which either returns an extracted page
or throws. -/
def extractWebContent (navigate : Nat → Except String WebDoc) (url : String) :
    PageContent :=
  retryLoop navigate (mkWebSuccess url) (mkWebFailure url) 0 maxRetries

end Fetcher

/-! ## Text Normalizer (`cleanText` / `decodeHtmlEntities`,
the section-formatter revision of the source) -/

namespace TextNorm

/-- The apostrophe character (ASCII 39). -/
def apost : Char := Char.ofNat 39

/-- The double-quote character (ASCII 34). -/
def dquote : Char := Char.ofNat 34

/-- `s.replace(pat, rep)` for a literal global pattern: leftmost,
non-overlapping, the replacement not rescanned.  Structural recursion on a
fuel initialized to `s.length` (every step strictly shortens the rest, and a
match consumes `pat.length ≥ 1` characters, so the fuel never runs out on the
call from `replaceAll`). -/
def replaceAllAux (pat rep : List Char) : Nat → List Char → List Char
  | 0, s => s
  | _ + 1, [] => []
  | fuel + 1, c :: rest =>
    if prefixL pat (c :: rest) && !pat.isEmpty then
      rep ++ replaceAllAux pat rep fuel ((c :: rest).drop pat.length)
    else c :: replaceAllAux pat rep fuel rest

/-- See `replaceAllAux`. -/
def replaceAll (pat rep s : List Char) : List Char :=
  replaceAllAux pat rep s.length s

/-- `s.replace(/<[^>]*>/g, '')`: the suffix after the first `>`, if any. -/
def afterChar (t : Char) : List Char → Option (List Char)
  | [] => none
  | c :: rest => if c == t then some rest else afterChar t rest

/-- `s.replace(/<[^>]*>/g, '')`: each `<` with a later `>` opens a tag that is
removed through the first such `>`; a `<` with no closing `>` stays.  Fueled
like `replaceAllAux`. -/
def stripTagsAux : Nat → List Char → List Char
  | 0, s => s
  | _ + 1, [] => []
  | fuel + 1, c :: rest =>
    if c == '<' then
      match afterChar '>' rest with
      | some after => stripTagsAux fuel after
      | none => c :: stripTagsAux fuel rest
    else c :: stripTagsAux fuel rest

/-- See `stripTagsAux`. -/
def stripTags (s : List Char) : List Char := stripTagsAux s.length s

/-- `s.replace(/[''"]/g, "'")` — the character class holds the two ASCII
quote characters, so both become the apostrophe. -/
def quoteMap1 (c : Char) : Char := if c == apost || c == dquote then apost else c

/-- `s.replace(/["'"]/g, '"')` — both ASCII quote characters become the
double quote. -/
def quoteMap2 (c : Char) : Char := if c == dquote || c == apost then dquote else c

/-- `s.replace(/ /g, ' ')`. -/
def nbspMap (c : Char) : Char := if c.toNat == 0xA0 then ' ' else c

/-- `s.replace(/\s*-\s*$/, '')` (no `g` flag; at most one match, at the end):
drop one trailing hyphen together with the whitespace around it. -/
def dropTrailingDashWs (s : List Char) : List Char :=
  match s.reverse.dropWhile (fun c => jsWs c) with
  | '-' :: r2 => (r2.dropWhile fun c => jsWs c).reverse
  | _ => s

/-- `s.replace(/^-\s*/, '')`: drop one leading hyphen and the whitespace
after it. -/
def dropLeadingDashWs : List Char → List Char
  | '-' :: rest => rest.dropWhile fun c => jsWs c
  | s => s

/-- `s.replace(/\s+/g, ' ')`: every maximal whitespace run becomes one space
(same runs-collapsing core as `AIProcessor.wsRunsTo`). -/
def wsCollapse (s : List Char) : List Char := AIProcessor.wsRunsTo ' ' s

/-- `dropWhile` of JavaScript whitespace (the left half of `trim`). -/
def trimL (s : List Char) : List Char := s.dropWhile fun c => jsWs c

/-- The right half of `trim`. -/
def trimR (s : List Char) : List Char := (s.reverse.dropWhile fun c => jsWs c).reverse

/-- `s.trim()`. -/
def trim (s : List Char) : List Char := trimR (trimL s)

/-- `/​|‌|‍|﻿/g` removal. -/
def removeZeroWidth (s : List Char) : List Char :=
  s.filter fun c =>
    !(c.toNat == 0x200B || c.toNat == 0x200C || c.toNat == 0x200D || c.toNat == 0xFEFF)

/-- `decodeHtmlEntities(text)` (the `typeof`-guarded revision): the fixed
entity table applied in source order, then zero-width removal, whitespace
collapse and trim; `''` for empty (falsy) input. -/
def decodeHtmlEntities (s : List Char) : List Char :=
  if s.isEmpty then []
  else
    trim (wsCollapse (removeZeroWidth (
      replaceAll "&rdquo;".data [dquote] (
      replaceAll "&ldquo;".data [dquote] (
      replaceAll "&Prime;".data [dquote] (
      replaceAll "&prime;".data [apost] (
      replaceAll "&ndash;".data "–".data (
      replaceAll "&mdash;".data "—".data (
      replaceAll "&hellip;".data "...".data (
      replaceAll "&lsquo;".data [apost] (
      replaceAll "&rsquo;".data [apost] (
      replaceAll "&#39;".data [apost] (
      replaceAll "&quot;".data [dquote] (
      replaceAll "&lt;".data "<".data (
      replaceAll "&gt;".data ">".data (
      replaceAll "&amp;".data "&".data (
      replaceAll "&nbsp;".data " ".data s)))))))))))))))))

/-- `cleanText(rawText)` on a (non-empty) string: tag stripping, arrow and
dash normalization, quote normalization, non-breaking-space fix, edge-dash
trimming, arrow respacing, whitespace collapse and trim, then
`decodeHtmlEntities` — all in source order; `''` for empty (falsy) input. -/
def cleanText (s : List Char) : List Char :=
  if s.isEmpty then []
  else
    decodeHtmlEntities (trim (wsCollapse (
      replaceAll "->".data " -> ".data (
      dropLeadingDashWs (dropTrailingDashWs (
      (((((
      replaceAll "—".data "-".data (
      replaceAll "–".data "-".data (
      replaceAll "→".data "->".data (
      stripTags s))))
        ).map quoteMap1).map quoteMap2).map nbspMap)))))))

/-- `normalize` on Lean strings: the `cleanText` pipeline. -/
def normalize (s : String) : String := ⟨cleanText s.data⟩

/-- A JavaScript value, as far as `cleanText`'s input contract is concerned
(numbers restricted to integers; `NaN` behaves like `0`: falsy). -/
inductive JSVal : Type
  | vstr : String → JSVal
  | vnum : Int → JSVal
  | vbool : Bool → JSVal
  | vnull : JSVal
  | vundef : JSVal
deriving Repr, DecidableEq

/-- JavaScript truthiness of a `JSVal` (`!!v`). -/
def jsTruthy : JSVal → Bool
  | JSVal.vstr s => !s.isEmpty
  | JSVal.vnum n => n != 0
  | JSVal.vbool b => b
  | JSVal.vnull => false
  | JSVal.vundef => false

/-- `String(v)`. -/
def jsToString : JSVal → String
  | JSVal.vstr s => s
  | JSVal.vnum n => toString n
  | JSVal.vbool b => if b then "true" else "false"
  | JSVal.vnull => "null"
  | JSVal.vundef => "undefined"

/-- `cleanText(rawText)` on an arbitrary JavaScript value (the
`typeof`-guarded revision): `if (!rawText) return ''`, otherwise
`String(rawText)` is cleaned.  Total by construction — `String()` accepts
every value, so no path throws. -/
def cleanTextJS (v : JSVal) : String :=
  if jsTruthy v then ⟨cleanText (jsToString v).data⟩ else ""

end TextNorm

/-! ## Statement helpers (used only to phrase and prove the theorems below) -/

/-- Characters untouched by every rewriting stage of the normalizer:
lowercase ASCII letters, ASCII digits, and the space. -/
def plainChar (c : Char) : Bool :=
  (97 ≤ c.toNat && c.toNat ≤ 122) || (48 ≤ c.toNat && c.toNat ≤ 57) || c == ' '

/-- Whether a string starts with a whitespace character. -/
def headIsWs : List Char → Bool
  | [] => false
  | c :: _ => jsWs c

/-- Every whitespace character of `s` is a plain space. -/
def wsOnlySpace (s : List Char) : Prop := ∀ c ∈ s, jsWs c = true → c = ' '

/-- No two adjacent whitespace characters in `s`. -/
def noAdjWs (s : List Char) : Prop :=
  List.Chain' (fun a b => ¬(jsWs a = true ∧ jsWs b = true)) s

/-! ## Theorems -/

/-- `strPresent o` holds exactly when the field is present, non-empty and free
of the `unknown|not found|error` placeholder words (the literal
`!== 'Not found'` comparison is subsumed by the placeholder test). -/
theorem strPresent_iff (o : Option String) :
    Crawler.strPresent o = true ↔
      ∃ s, o = some s ∧ s ≠ "" ∧ Crawler.placeholderTest s = false := by
  cases o with
  | none => simp [Crawler.strPresent]
  | some s =>
    have hnf : Crawler.placeholderTest "Not found" = true := by decide
    simp only [Crawler.strPresent, Bool.and_eq_true, Bool.not_eq_true',
      Option.some.injEq, exists_eq_left']
    constructor
    · rintro ⟨⟨h1, _⟩, h3⟩
      refine ⟨fun he => ?_, h3⟩
      rw [he] at h1
      exact absurd h1 (by decide)
    · rintro ⟨h1, h3⟩
      refine ⟨⟨?_, ?_⟩, h3⟩
      · rw [Bool.eq_false_iff]
        intro hemp
        exact h1 ((String.isEmpty_iff s).mp hemp)
      · have : s ≠ "Not found" := fun he => by rw [he] at h3; exact absurd hnf (by simp [h3])
        simpa [bne_iff_ne] using this

/-- C3: `isDataComplete(record)` returns true iff `card.name` and `card.bank`
are both non-empty and neither matches the placeholder pattern
`unknown|not found|error`, and at least one of `benefits`, `current_offers`,
`perks`, `rewards.earning.categories` is non-empty; in particular it returns
false whenever all four of those sections are empty. -/
theorem C3_isDataComplete_characterization (d : CardData) :
    (Crawler.isDataComplete d = true ↔
      ((∃ n, cardName d = some n ∧ n ≠ "" ∧ Crawler.placeholderTest n = false) ∧
       (∃ b, cardBank d = some b ∧ b ≠ "" ∧ Crawler.placeholderTest b = false) ∧
       (optListLen d.benefits > 0 ∨ optListLen d.current_offers > 0 ∨
        optListLen d.perks > 0 ∨ optListLen (earningCategories d) > 0))) ∧
    (optListLen d.benefits = 0 → optListLen d.current_offers = 0 →
     optListLen d.perks = 0 → optListLen (earningCategories d) = 0 →
     Crawler.isDataComplete d = false) := by
  constructor
  · simp [Crawler.isDataComplete, strPresent_iff, and_assoc, or_assoc]
  · intro h1 h2 h3 h4
    simp [Crawler.isDataComplete, h1, h2, h3, h4]

/-- C3 witness: a record with a valid card name and bank but all four content
sections empty is incomplete. -/
theorem C3_isDataComplete_witness :
    Crawler.isDataComplete
      ⟨some ⟨some "Regalia", some "HDFC"⟩, none, some [], some [], some [], none⟩ = false :=
  (C3_isDataComplete_characterization _).2 rfl rfl rfl rfl

/-- C1: any link whose (lowercased) href contains `.pdf` is accepted by
`isRelevantLink` and classified `pdf` by `classifyLink`, whatever its anchor
text, base URL or domain — the PDF indicator check runs first and
short-circuits before the irrelevant-pattern rejection and the domain policy. -/
theorem C1_pdf_short_circuit (text href baseUrl : String)
    (h : incl (jsToLower href) ".pdf" = true) :
    LinkProcessor.isRelevantLink text href baseUrl = true ∧
    LinkProcessor.classifyLink href text = "pdf" := by
  have h1 : LinkProcessor.has (jsToLower href).data ".pdf" = true := h
  constructor
  · unfold LinkProcessor.isRelevantLink LinkProcessor.pdfIndicatorsRelevant
    simp [h1]
  · unfold LinkProcessor.classifyLink
    simp [h1]

/-- C1 witness: an `.pdf` href with the generic anchor text `click here`. -/
theorem C1_pdf_short_circuit_witness :
    incl (jsToLower "https://x.com/doc.pdf") ".pdf" = true ∧
    (LinkProcessor.isRelevantLink "click here" "https://x.com/doc.pdf"
        "https://bank.example" = true ∧
     LinkProcessor.classifyLink "https://x.com/doc.pdf" "click here" = "pdf") :=
  ⟨by decide, C1_pdf_short_circuit "click here" "https://x.com/doc.pdf"
    "https://bank.example" (by decide)⟩

/-- C2 counterexample: the anchor text `t&c` matches none of the strict
relevant-patterns, yet `isRelevantLink` accepts it (the PDF indicator check
short-circuits to `true` before the strict-pattern requirement is consulted),
so "a link matching no strict relevant-pattern is always excluded" is false
as stated. -/
theorem C2_counterexample :
    ¬ (∀ text href baseUrl : String,
        LinkProcessor.testAny LinkProcessor.strictRelevantPatterns
          (jsToLower text).data (jsToLower href).data = false →
        LinkProcessor.isRelevantLink text href baseUrl = false) :=
  fun hclaim =>
    absurd (hclaim "t&c" "z" "https://bank.example" (by decide)) (by decide)

/-- C2 (amended): a link matching none of the PDF indicators and none of the
strict relevant-patterns is excluded by `isRelevantLink`, regardless of its
domain. -/
theorem C2_default_deny (text href baseUrl : String)
    (h1 : LinkProcessor.pdfIndicatorsRelevant (jsToLower text).data (jsToLower href).data = false)
    (h2 : LinkProcessor.testAny LinkProcessor.strictRelevantPatterns
        (jsToLower text).data (jsToLower href).data = false) :
    LinkProcessor.isRelevantLink text href baseUrl = false := by
  unfold LinkProcessor.isRelevantLink
  simp [h1, h2]

/-- C2 witness: the anchor `hello` with href `x` matches nothing and is
excluded. -/
theorem C2_default_deny_witness :
    LinkProcessor.pdfIndicatorsRelevant (jsToLower "hello").data (jsToLower "x").data = false ∧
    LinkProcessor.testAny LinkProcessor.strictRelevantPatterns
      (jsToLower "hello").data (jsToLower "x").data = false ∧
    LinkProcessor.isRelevantLink "hello" "x" "https://bank.example" = false :=
  ⟨by decide, by decide,
   C2_default_deny "hello" "x" "https://bank.example" (by decide) (by decide)⟩

/-- C8: the listing content filter rejects every candidate containing an
exclusion token (even when an inclusion token is also present), and rejects
every candidate lacking all inclusion tokens (default-deny). -/
theorem C8_listing_filter (c : AIProcessor.CardCandidate) :
    (AIProcessor.shouldExclude c = true → AIProcessor.isValidCreditCard c = false) ∧
    (AIProcessor.hasIncludePattern c = false → AIProcessor.isValidCreditCard c = false) := by
  unfold AIProcessor.isValidCreditCard
  constructor
  · intro h; simp [h]
  · intro h; simp [h]

/-- C8 witness: `{name: "XYZ Business Credit Card", url: "...business-card..."}`
contains the exclusion token `business` (despite the inclusion token
`credit card`) and is rejected. -/
theorem C8_listing_filter_witness :
    AIProcessor.shouldExclude
      ⟨some "https://bank.example/business-card", some "XYZ Business Credit Card", none⟩ = true ∧
    AIProcessor.isValidCreditCard
      ⟨some "https://bank.example/business-card", some "XYZ Business Credit Card", none⟩ = false :=
  ⟨by decide, (C8_listing_filter _).1 (by decide)⟩

/-- `Math.round` of a natural number is itself. -/
theorem mathRound_natCast (n : ℕ) : AIProcessor.mathRound (n : ℚ) = n := by
  unfold AIProcessor.mathRound
  rw [show ((n : ℚ) = ((n : ℤ) : ℚ)) by push_cast; ring, Int.floor_int_add]
  norm_num

/-- `Math.round` maps `[0, 1]` into `{0, 1} ⊆ [0, 1]`. -/
theorem mathRound_mem01 (q : ℚ) (h0 : 0 ≤ q) (h1 : q ≤ 1) :
    0 ≤ AIProcessor.mathRound q ∧ AIProcessor.mathRound q ≤ 1 := by
  unfold AIProcessor.mathRound
  constructor
  · exact Int.le_floor.mpr (by push_cast; linarith)
  · have h2 : (q + 1 / 2 : ℚ) < ((2 : ℤ) : ℚ) := by push_cast; linarith
    have := Int.floor_lt.mpr h2
    omega

/-- The ten-signal `score` never exceeds `100`. -/
theorem confScore_le (d : CardData) : AIProcessor.confScore d ≤ 100 := by
  unfold AIProcessor.confScore
  have h1 : (if truthyStr (cardName d) then 8 else 0) ≤ 8 := by split <;> omega
  have h2 : (if truthyStr (cardBank d) then 7 else 0) ≤ 7 := by split <;> omega
  have h3 : (if truthyStr (rewardsProgram d) then 5 else 0) ≤ 5 := by split <;> omega
  have h4 : (if truthyStr (rewardsType d) then 5 else 0) ≤ 5 := by split <;> omega
  have h5 : (if optListLen (earningCategories d) > 0 then 10 else 0) ≤ 10 := by split <;> omega
  have h6 : (if optListLen (rewardsRedemption d) > 0 then 5 else 0) ≤ 5 := by split <;> omega
  have h7 : (if optListLen d.benefits > 0 then 25 else 0) ≤ 25 := by split <;> omega
  have h8 : (if optListLen d.current_offers > 0 then 20 else 0) ≤ 20 := by split <;> omega
  have h9 : (if optListLen d.perks > 0 then 10 else 0) ≤ 10 := by split <;> omega
  have h10 : (if optListLen d.partnerships > 0 then 5 else 0) ≤ 5 := by split <;> omega
  omega

/-- The five-signal listing `score` never exceeds `100`. -/
theorem confScoreListing_le (d : CardData) : AIProcessor.confScoreListing d ≤ 100 := by
  unfold AIProcessor.confScoreListing
  have h1 : (if truthyStr (cardName d) then 20 else 0) ≤ 20 := by split <;> omega
  have h2 : (if truthyStr (cardBank d) then 20 else 0) ≤ 20 := by split <;> omega
  have h3 : (if optListLen (earningCategories d) > 0 then 20 else 0) ≤ 20 := by split <;> omega
  have h4 : (if optListLen d.benefits > 0 then 20 else 0) ≤ 20 := by split <;> omega
  have h5 : (if optListLen d.current_offers > 0 then 20 else 0) ≤ 20 := by split <;> omega
  omega

/-- The single-card confidence score is exactly `score / 100`. -/
theorem calculateConfidenceScore_eq (d : CardData) :
    AIProcessor.calculateConfidenceScore d = (AIProcessor.confScore d : ℚ) / 100 := by
  unfold AIProcessor.calculateConfidenceScore
  have hm : ((AIProcessor.confMaxScore : ℕ) : ℚ) = 100 := by norm_num [AIProcessor.confMaxScore]
  rw [hm]
  have he : ((AIProcessor.confScore d : ℚ) / 100 * 100) = (AIProcessor.confScore d : ℚ) := by
    field_simp
  rw [he, mathRound_natCast]
  push_cast
  ring

/-- C7: both `calculateConfidenceScore` implementations (the ten-signal
single-card one and the five-signal listing one) always produce a value in
`[0, 1]`; a record with none of the signals present scores `0`, and a record
with every signal present scores `1`. -/
theorem C7_confidence_bounds (d : CardData) :
    (0 ≤ AIProcessor.calculateConfidenceScore d ∧
     AIProcessor.calculateConfidenceScore d ≤ 1) ∧
    (0 ≤ AIProcessor.calculateConfidenceScoreListing d ∧
     AIProcessor.calculateConfidenceScoreListing d ≤ 1) ∧
    (truthyStr (cardName d) = false → truthyStr (cardBank d) = false →
     truthyStr (rewardsProgram d) = false → truthyStr (rewardsType d) = false →
     optListLen (earningCategories d) = 0 → optListLen (rewardsRedemption d) = 0 →
     optListLen d.benefits = 0 → optListLen d.current_offers = 0 →
     optListLen d.perks = 0 → optListLen d.partnerships = 0 →
     AIProcessor.calculateConfidenceScore d = 0 ∧
     AIProcessor.calculateConfidenceScoreListing d = 0) ∧
    (truthyStr (cardName d) = true → truthyStr (cardBank d) = true →
     truthyStr (rewardsProgram d) = true → truthyStr (rewardsType d) = true →
     0 < optListLen (earningCategories d) → 0 < optListLen (rewardsRedemption d) →
     0 < optListLen d.benefits → 0 < optListLen d.current_offers →
     0 < optListLen d.perks → 0 < optListLen d.partnerships →
     AIProcessor.calculateConfidenceScore d = 1 ∧
     AIProcessor.calculateConfidenceScoreListing d = 1) := by
  refine ⟨?_, ?_, ?_, ?_⟩
  · rw [calculateConfidenceScore_eq]
    constructor
    · positivity
    · rw [div_le_one (by norm_num)]
      exact_mod_cast confScore_le d
  · unfold AIProcessor.calculateConfidenceScoreListing
    have hb := mathRound_mem01 ((AIProcessor.confScoreListing d : ℚ) / 100)
      (by positivity)
      (by rw [div_le_one (by norm_num)]; exact_mod_cast confScoreListing_le d)
    exact ⟨by exact_mod_cast hb.1, by exact_mod_cast hb.2⟩
  · intro h1 h2 h3 h4 h5 h6 h7 h8 h9 h10
    constructor
    · rw [calculateConfidenceScore_eq]
      unfold AIProcessor.confScore
      simp [h1, h2, h3, h4, h5, h6, h7, h8, h9, h10]
    · unfold AIProcessor.calculateConfidenceScoreListing AIProcessor.confScoreListing
      simp [h1, h2, h5, h7, h8]
      norm_num [AIProcessor.mathRound]
  · intro h1 h2 h3 h4 h5 h6 h7 h8 h9 h10
    constructor
    · rw [calculateConfidenceScore_eq]
      unfold AIProcessor.confScore
      simp [h1, h2, h3, h4, h5, h6, h7, h8, h9, h10]
    · unfold AIProcessor.calculateConfidenceScoreListing AIProcessor.confScoreListing
      simp [h1, h2, h5, h7, h8]
      norm_num [AIProcessor.mathRound]

/-- C7 witness: the all-signals record scores exactly `1` (and the bounds
hold for it), instantiating every hypothesis of the bounds theorem. -/
theorem C7_confidence_bounds_witness :
    AIProcessor.calculateConfidenceScore
      ⟨some ⟨some "A", some "B"⟩,
       some ⟨some "P", some "T", some ⟨some ["x"]⟩, some ["r"]⟩,
       some ["b"], some ["o"], some ["p"], some ["q"]⟩ = 1 ∧
    AIProcessor.calculateConfidenceScoreListing
      ⟨some ⟨some "A", some "B"⟩,
       some ⟨some "P", some "T", some ⟨some ["x"]⟩, some ["r"]⟩,
       some ["b"], some ["o"], some ["p"], some ["q"]⟩ = 1 :=
  (C7_confidence_bounds _).2.2.2 rfl rfl rfl rfl (by decide) (by decide)
    (by decide) (by decide) (by decide) (by decide)

/-- Every category weight is at most the `pdf` weight `10`. -/
theorem priority_le_ten (t : String) : LinkProcessor.priority t ≤ 10 := by
  unfold LinkProcessor.priority
  split_ifs <;> omega

/-- `pdf` is the only category weighing `10`. -/
theorem priority_eq_ten (t : String) (h : LinkProcessor.priority t = 10) : t = "pdf" := by
  unfold LinkProcessor.priority at h
  split_ifs at h with h1
  · exact eq_of_beq h1
  all_goals omega

/-- C9: `prioritizeLinks` sorts descending by the fixed category weight table,
is a permutation of its input, keeps the relative order of equal-weight links
(stability), and whenever the input contains a `pdf`-classified link the first
output element is `pdf`-classified. -/
theorem C9_prioritize (links : List LinkProcessor.LinkC) :
    List.Sorted LinkProcessor.linkGE (LinkProcessor.prioritizeLinks links) ∧
    (LinkProcessor.prioritizeLinks links).Perm links ∧
    (∀ a b, LinkProcessor.priority a.type = LinkProcessor.priority b.type →
       List.Sublist [a, b] links →
       List.Sublist [a, b] (LinkProcessor.prioritizeLinks links)) ∧
    ((∃ l ∈ links, l.type = "pdf") →
       ∃ h, (LinkProcessor.prioritizeLinks links).head? = some h ∧ h.type = "pdf") := by
  refine ⟨List.sorted_insertionSort _ _, List.perm_insertionSort _ _, ?_, ?_⟩
  · intro a b heq hsub
    exact List.pair_sublist_insertionSort (le_of_eq heq.symm) hsub
  · rintro ⟨l0, hmem, htype⟩
    have hmem2 : l0 ∈ LinkProcessor.prioritizeLinks links := by
      unfold LinkProcessor.prioritizeLinks
      rw [List.mem_insertionSort]
      exact hmem
    cases hout : LinkProcessor.prioritizeLinks links with
    | nil => rw [hout] at hmem2; cases hmem2
    | cons hd tl =>
      refine ⟨hd, rfl, ?_⟩
      have hsorted : List.Sorted LinkProcessor.linkGE (hd :: tl) := by
        rw [← hout]; exact List.sorted_insertionSort _ _
      rw [hout] at hmem2
      have h10 : LinkProcessor.priority hd.type = 10 := by
        have hle := priority_le_ten hd.type
        cases List.mem_cons.mp hmem2 with
        | inl he => rw [← he, htype]; decide
        | inr ht =>
          have hge := (List.sorted_cons.mp hsorted).1 l0 ht
          unfold LinkProcessor.linkGE at hge
          rw [htype] at hge
          have : LinkProcessor.priority "pdf" = 10 := by decide
          omega
      exact priority_eq_ten _ h10

/-- C9 witness: one `general` link and one `pdf` link — the `pdf` link is
ranked first. -/
theorem C9_prioritize_witness :
    ∃ h, (LinkProcessor.prioritizeLinks
      [⟨"https://bank.example/know-more", "Know More", "", "", "general"⟩,
       ⟨"https://bank.example/terms.pdf", "Terms", "", "", "pdf"⟩]).head? = some h ∧
      h.type = "pdf" :=
  (C9_prioritize _).2.2.2
    ⟨⟨"https://bank.example/terms.pdf", "Terms", "", "", "pdf"⟩, by decide, rfl⟩

/-- `retryLoop` with positive fuel either returns the success shape of the
first succeeding attempt, or the failure shape carrying the error of the last
attempt after all of them failed. -/
theorem retryLoop_shape {α : Type} (att : Nat → Except String α)
    (ok : α → Fetcher.PageContent) (fail : String → Fetcher.PageContent) :
    ∀ (fuel i : Nat), fuel ≠ 0 →
      (∃ j a, j < fuel ∧ att (i + j) = Except.ok a ∧
        Fetcher.retryLoop att ok fail i fuel = ok a) ∨
      (∃ e, Fetcher.retryLoop att ok fail i fuel = fail e ∧
        att (i + fuel - 1) = Except.error e) := by
  intro fuel
  induction fuel with
  | zero => intro i h; exact absurd rfl h
  | succ f ih =>
    intro i _
    cases hatt : att i with
    | ok a =>
      left
      refine ⟨0, a, Nat.succ_pos f, by simpa using hatt, ?_⟩
      unfold Fetcher.retryLoop
      rw [hatt]
    | error e =>
      cases Nat.eq_zero_or_pos f with
      | inl hf =>
        subst hf
        right
        refine ⟨e, ?_, by simpa using hatt⟩
        unfold Fetcher.retryLoop
        rw [hatt]
        rfl
      | inr hf =>
        have hne : f ≠ 0 := Nat.pos_iff_ne_zero.mp hf
        have heq : Fetcher.retryLoop att ok fail i (f + 1) =
            Fetcher.retryLoop att ok fail (i + 1) f := by
          simp only [Fetcher.retryLoop]
          rw [hatt]
          simp [hne]
        rw [heq]
        cases ih (i + 1) hne with
        | inl h =>
          obtain ⟨j, a, hj, hval, hres⟩ := h
          left
          refine ⟨j + 1, a, by omega, ?_, hres⟩
          rwa [show i + (j + 1) = i + 1 + j by omega]
        | inr h =>
          obtain ⟨e2, hres, hval⟩ := h
          right
          refine ⟨e2, hres, ?_⟩
          rwa [show i + (f + 1) - 1 = i + 1 + f - 1 by omega]

/-- `retryLoop` consults only the attempts with index below its fuel. -/
theorem retryLoop_congr {α : Type} (att att2 : Nat → Except String α)
    (ok : α → Fetcher.PageContent) (fail : String → Fetcher.PageContent) :
    ∀ (fuel i : Nat), (∀ k, k < fuel → att (i + k) = att2 (i + k)) →
      Fetcher.retryLoop att ok fail i fuel = Fetcher.retryLoop att2 ok fail i fuel := by
  intro fuel
  induction fuel with
  | zero => intro i _; rfl
  | succ f ih =>
    intro i h
    have h0 : att i = att2 i := by simpa using h 0 (Nat.succ_pos f)
    cases h2 : att2 i with
    | ok a =>
      simp only [Fetcher.retryLoop]
      rw [h0, h2]
    | error e =>
      simp only [Fetcher.retryLoop]
      rw [h0, h2]
      cases Nat.eq_zero_or_pos f with
      | inl hf => subst hf; rfl
      | inr hf =>
        have hne : f ≠ 0 := Nat.pos_iff_ne_zero.mp hf
        have hrec := ih (i + 1) fun k hk => by
          have := h (k + 1) (by omega)
          rwa [show i + (k + 1) = i + 1 + k by omega] at this
        simp [hne, hrec]

/-- C4: both single-URL fetchers are total and failure-shaped on exhaustion:
each returns either a success-shaped or a failure-shaped `PageContent` (never
an exception — the return type carries no error case beyond the `error`
field); when every one of the `maxRetries = 3` attempts fails, the result has
`success = false` and a populated `error`; and the result depends only on the
first three attempts. -/
theorem C4_fetch_total (pf : Nat → String → Except String Fetcher.PdfDoc)
    (conv : String → Option String) (nav : Nat → Except String Fetcher.WebDoc)
    (url : String) :
    ((∃ d, Fetcher.extractPdfContent pf conv url = Fetcher.mkPdfSuccess url d) ∨
     (∃ e, Fetcher.extractPdfContent pf conv url = Fetcher.mkPdfFailure url e)) ∧
    ((∃ d, Fetcher.extractWebContent nav url = Fetcher.mkWebSuccess url d) ∨
     (∃ e, Fetcher.extractWebContent nav url = Fetcher.mkWebFailure url e)) ∧
    ((∀ i, i < Fetcher.maxRetries →
        ∃ e, Fetcher.pdfAttempt pf conv url i = Except.error e) →
      (Fetcher.extractPdfContent pf conv url).success = false ∧
      (Fetcher.extractPdfContent pf conv url).error ≠ none) ∧
    ((∀ i, i < Fetcher.maxRetries → ∃ e, nav i = Except.error e) →
      (Fetcher.extractWebContent nav url).success = false ∧
      (Fetcher.extractWebContent nav url).error ≠ none) ∧
    (∀ att att2 : Nat → Except String Fetcher.PdfDoc,
      (∀ i, i < Fetcher.maxRetries → att i = att2 i) →
      Fetcher.retryLoop att (Fetcher.mkPdfSuccess url) (Fetcher.mkPdfFailure url)
          0 Fetcher.maxRetries =
        Fetcher.retryLoop att2 (Fetcher.mkPdfSuccess url) (Fetcher.mkPdfFailure url)
          0 Fetcher.maxRetries) := by
  refine ⟨?_, ?_, ?_, ?_, ?_⟩
  · cases retryLoop_shape (Fetcher.pdfAttempt pf conv url) (Fetcher.mkPdfSuccess url)
      (Fetcher.mkPdfFailure url) Fetcher.maxRetries 0 (by decide) with
    | inl h => obtain ⟨_, a, _, _, hres⟩ := h; exact Or.inl ⟨a, hres⟩
    | inr h => obtain ⟨e, hres, _⟩ := h; exact Or.inr ⟨e, hres⟩
  · cases retryLoop_shape nav (Fetcher.mkWebSuccess url)
      (Fetcher.mkWebFailure url) Fetcher.maxRetries 0 (by decide) with
    | inl h => obtain ⟨_, a, _, _, hres⟩ := h; exact Or.inl ⟨a, hres⟩
    | inr h => obtain ⟨e, hres, _⟩ := h; exact Or.inr ⟨e, hres⟩
  · intro hall
    cases retryLoop_shape (Fetcher.pdfAttempt pf conv url) (Fetcher.mkPdfSuccess url)
      (Fetcher.mkPdfFailure url) Fetcher.maxRetries 0 (by decide) with
    | inl h =>
      obtain ⟨j, a, hj, hval, _⟩ := h
      obtain ⟨e, he⟩ := hall j hj
      rw [show (0 + j) = j by omega] at hval
      rw [hval] at he
      cases he
    | inr h =>
      obtain ⟨e, hres, _⟩ := h
      unfold Fetcher.extractPdfContent
      rw [hres]
      exact ⟨rfl, by simp [Fetcher.mkPdfFailure]⟩
  · intro hall
    cases retryLoop_shape nav (Fetcher.mkWebSuccess url)
      (Fetcher.mkWebFailure url) Fetcher.maxRetries 0 (by decide) with
    | inl h =>
      obtain ⟨j, a, hj, hval, _⟩ := h
      obtain ⟨e, he⟩ := hall j hj
      rw [show (0 + j) = j by omega] at hval
      rw [hval] at he
      cases he
    | inr h =>
      obtain ⟨e, hres, _⟩ := h
      unfold Fetcher.extractWebContent
      rw [hres]
      exact ⟨rfl, by simp [Fetcher.mkWebFailure]⟩
  · intro att att2 h
    exact retryLoop_congr att att2 _ _ Fetcher.maxRetries 0 fun k hk => by
      simpa using h k hk

/-- C4 witness: oracles that always fail produce the failure-shaped pages. -/
theorem C4_fetch_total_witness :
    (Fetcher.extractPdfContent (fun _ _ => Except.error "boom") (fun _ => none)
        "https://bank.example/doc.pdf").success = false ∧
    (Fetcher.extractPdfContent (fun _ _ => Except.error "boom") (fun _ => none)
        "https://bank.example/doc.pdf").error ≠ none :=
  (C4_fetch_total (fun _ _ => Except.error "boom") (fun _ => none)
      (fun _ => Except.error "nav down") "https://bank.example/doc.pdf").2.2.1
    fun _ _ => ⟨"All PDF extraction attempts failed", rfl⟩

/-- `firstOkList` of a list with no `ok` element is `none`. -/
theorem firstOkList_none {α : Type} :
    ∀ l : List (Except String α), (∀ x ∈ l, ∃ e, x = Except.error e) →
      LinkProcessor.firstOkList l = none := by
  intro l
  induction l with
  | nil => intro _; rfl
  | cons x rest ih =>
    intro h
    obtain ⟨e, he⟩ := h x (List.mem_cons_self x rest)
    subst he
    simpa [LinkProcessor.firstOkList] using ih fun y hy => h y (List.mem_cons_of_mem _ hy)

/-- The invariant of the `processLinks` loop: the failed list never holds a
`pdf`-typed entry, and `successCount` always equals the processed count. -/
theorem processLinks_inv (pdf : String → LinkProcessor.PdfExtract)
    (web : String → LinkProcessor.WebExtract) :
    ∀ (links : List LinkProcessor.LinkC) (st : LinkProcessor.ProcState),
      (∀ f ∈ st.failedLinks, f.type ≠ "pdf") →
      st.successCount = st.processedLinks.length →
      (∀ f ∈ (LinkProcessor.processLinks pdf web st links).failedLinks, f.type ≠ "pdf") ∧
      (LinkProcessor.processLinks pdf web st links).successCount =
        (LinkProcessor.processLinks pdf web st links).processedLinks.length := by
  intro links
  induction links with
  | nil => intro st h1 h2; exact ⟨h1, h2⟩
  | cons l rest ih =>
    intro st h1 h2
    have hstep :
        (∀ f ∈ (LinkProcessor.processOne pdf web st l).failedLinks, f.type ≠ "pdf") ∧
        (LinkProcessor.processOne pdf web st l).successCount =
          (LinkProcessor.processOne pdf web st l).processedLinks.length := by
      unfold LinkProcessor.processOne
      dsimp only
      split
      · exact ⟨h1, h2⟩
      · split
        · exact ⟨h1, by simp [h2]⟩
        · split
          · exact ⟨h1, by simp [h2]⟩
          · rename_i htype _
            refine ⟨?_, by simpa using h2⟩
            intro f hf
            rcases List.mem_append.mp hf with hold | hnew
            · exact h1 f hold
            · obtain rfl := List.mem_singleton.mp hnew
              intro hc
              exact htype (by simp only [beq_iff_eq]; simpa using hc)
    have := ih (LinkProcessor.processOne pdf web st l) hstep.1 hstep.2
    simpa [LinkProcessor.processLinks] using this

/-- C10: in `processLinks` a `pdf`-classified link is never recorded in
`failedLinks`: `extractPDFContent` converts every internal failure into a
value with `content = null` and a failure summary, the PDF branch always
pushes onto `processedLinks` and bumps the success counter, and every entry
of `failedLinks` is non-`pdf`. -/
theorem C10_pdf_never_failed (pdf : String → LinkProcessor.PdfExtract)
    (web : String → LinkProcessor.WebExtract) (links : List LinkProcessor.LinkC) :
    (∀ f ∈ (LinkProcessor.processLinks pdf web LinkProcessor.initState links).failedLinks,
       f.type ≠ "pdf") ∧
    (LinkProcessor.processLinks pdf web LinkProcessor.initState links).successCount =
      (LinkProcessor.processLinks pdf web LinkProcessor.initState links).processedLinks.length ∧
    (∀ (fp : String → Except String (List String)) (conv : String → Option String)
        (u : String),
      (∀ x, ∃ e, fp x = Except.error e) →
      LinkProcessor.extractPDFContent fp conv u =
        { content := none,
          summary := "PDF extraction failed: All PDF extraction attempts failed" }) ∧
    (∀ (st : LinkProcessor.ProcState) (l : LinkProcessor.LinkC),
      l.type = "pdf" → st.processedUrls.contains l.url = false →
      (LinkProcessor.processOne pdf web st l).processedLinks =
        st.processedLinks ++ [LinkProcessor.pdfEntry l (pdf l.url)] ∧
      (LinkProcessor.processOne pdf web st l).failedLinks = st.failedLinks ∧
      (LinkProcessor.processOne pdf web st l).successCount = st.successCount + 1) := by
  obtain ⟨ha, hb⟩ := processLinks_inv pdf web links LinkProcessor.initState
    (by intro f hf; cases hf) rfl
  refine ⟨ha, hb, ?_, ?_⟩
  · intro fp conv u hall
    have hnone : ∀ l : List String,
        LinkProcessor.firstOkList (l.map fp) = none := by
      intro l
      exact firstOkList_none _ (by
        intro x hx
        obtain ⟨y, _, hy⟩ := List.mem_map.mp hx
        obtain ⟨e, he⟩ := hall y
        exact ⟨e, by rw [← hy, he]⟩)
    unfold LinkProcessor.extractPDFContent
    dsimp only
    rw [hnone]
  · intro st l htype hcont
    have hmem : l.url ∉ st.processedUrls := by simpa using hcont
    unfold LinkProcessor.processOne
    simp [hmem, htype]

/-- C10 witness: a `pdf` link with a fresh URL is pushed to `processedLinks`
(and not to `failedLinks`) even when its extraction oracle reports failure. -/
theorem C10_pdf_never_failed_witness :
    (LinkProcessor.processOne (fun _ => ⟨none, "PDF extraction failed: boom"⟩)
        (fun _ => ⟨false, none, some "err"⟩) LinkProcessor.initState
        ⟨"https://bank.example/terms.pdf", "Terms", "", "", "pdf"⟩).processedLinks =
      LinkProcessor.initState.processedLinks ++
        [LinkProcessor.pdfEntry ⟨"https://bank.example/terms.pdf", "Terms", "", "", "pdf"⟩
          ⟨none, "PDF extraction failed: boom"⟩] ∧
    (LinkProcessor.processOne (fun _ => ⟨none, "PDF extraction failed: boom"⟩)
        (fun _ => ⟨false, none, some "err"⟩) LinkProcessor.initState
        ⟨"https://bank.example/terms.pdf", "Terms", "", "", "pdf"⟩).failedLinks =
      LinkProcessor.initState.failedLinks ∧
    (LinkProcessor.processOne (fun _ => ⟨none, "PDF extraction failed: boom"⟩)
        (fun _ => ⟨false, none, some "err"⟩) LinkProcessor.initState
        ⟨"https://bank.example/terms.pdf", "Terms", "", "", "pdf"⟩).successCount =
      LinkProcessor.initState.successCount + 1 :=
  (C10_pdf_never_failed (fun _ => ⟨none, "PDF extraction failed: boom"⟩)
      (fun _ => ⟨false, none, some "err"⟩) []).2.2.2
    LinkProcessor.initState ⟨"https://bank.example/terms.pdf", "Terms", "", "", "pdf"⟩
    rfl rfl

/-- The whitespace codepoints recognized by `jsWs`. -/
theorem ws_codes (c : Char) (h : jsWs c = true) :
    c.toNat = 32 ∨ c.toNat = 9 ∨ c.toNat = 10 ∨ c.toNat = 13 ∨ c.toNat = 11 ∨
    c.toNat = 12 ∨ c.toNat = 160 ∨ c.toNat = 65279 ∨ c.toNat = 8232 ∨
    c.toNat = 8233 := by
  unfold jsWs at h
  simp only [Bool.or_eq_true, beq_iff_eq] at h
  rcases h with ((((((((h | h) | h) | h) | h) | h) | h) | h) | h) | h
  all_goals first
    | (subst h; simp)
    | (simp [h])

/-- The codepoint ranges covered by `plainChar`. -/
theorem plain_bounds (c : Char) (h : plainChar c = true) :
    (97 ≤ c.toNat ∧ c.toNat ≤ 122) ∨ (48 ≤ c.toNat ∧ c.toNat ≤ 57) ∨ c = ' ' := by
  unfold plainChar at h
  simp only [Bool.or_eq_true, Bool.and_eq_true, decide_eq_true_eq, beq_iff_eq] at h
  tauto

/-- A plain character differs from any non-plain character. -/
theorem plain_ne (c : Char) (hc : plainChar c = true) (d : Char)
    (hd : plainChar d = false) : c ≠ d := by
  intro he
  rw [he, hd] at hc
  cases hc

/-- A plain whitespace character is the space. -/
theorem plain_ws_space (c : Char) (hp : plainChar c = true) (hw : jsWs c = true) :
    c = ' ' := by
  rcases plain_bounds c hp with h | h | h
  · rcases ws_codes c hw with h2 | h2 | h2 | h2 | h2 | h2 | h2 | h2 | h2 | h2 <;> omega
  · rcases ws_codes c hw with h2 | h2 | h2 | h2 | h2 | h2 | h2 | h2 | h2 | h2 <;> omega
  · exact h

/-- The second fold component of `wsRunsTo` tracks whether the processed
suffix starts with whitespace. -/
theorem foldr_wsRunsStep_snd (r : Char) (s : List Char) :
    (s.foldr (AIProcessor.wsRunsStep r) ([], false)).2 = headIsWs s := by
  induction s with
  | nil => rfl
  | cons c rest ih =>
    show (AIProcessor.wsRunsStep r c (rest.foldr (AIProcessor.wsRunsStep r) ([], false))).2 =
      jsWs c
    unfold AIProcessor.wsRunsStep
    by_cases hw : jsWs c = true
    · simp only [hw, if_true]
      split <;> simp_all
    · simp [hw]

/-- The fold underlying `wsRunsTo` computes the collapsed string paired with
the starts-with-whitespace flag. -/
theorem foldr_wsRunsStep_eq (r : Char) (s : List Char) :
    s.foldr (AIProcessor.wsRunsStep r) ([], false) =
      (AIProcessor.wsRunsTo r s, headIsWs s) := by
  have h2 := foldr_wsRunsStep_snd r s
  exact Prod.ext rfl h2

/-- The defining recurrence of `wsRunsTo`. -/
theorem wsRunsTo_cons (r c : Char) (rest : List Char) :
    AIProcessor.wsRunsTo r (c :: rest) =
      if jsWs c then
        (if headIsWs rest then AIProcessor.wsRunsTo r rest
         else r :: AIProcessor.wsRunsTo r rest)
      else c :: AIProcessor.wsRunsTo r rest := by
  show (AIProcessor.wsRunsStep r c (rest.foldr (AIProcessor.wsRunsStep r) ([], false))).1 = _
  rw [foldr_wsRunsStep_eq]
  unfold AIProcessor.wsRunsStep
  cases hw : jsWs c with
  | true =>
    cases hh : headIsWs rest with
    | true => simp [hh]
    | false => simp [hh]
  | false => simp

/-- Collapsing does not change whether the string starts with whitespace. -/
theorem wsCollapse_head (s : List Char) :
    headIsWs (TextNorm.wsCollapse s) = headIsWs s := by
  induction s with
  | nil => rfl
  | cons c rest ih =>
    unfold TextNorm.wsCollapse at *
    rw [wsRunsTo_cons]
    cases hw : jsWs c with
    | true =>
      cases hh : headIsWs rest with
      | true =>
        simp only [hw, hh, if_true]
        rw [ih, hh]
        show _ = jsWs c
        rw [hw]
      | false =>
        simp only [hw, hh, if_true, Bool.false_eq_true, if_false]
        show jsWs ' ' = jsWs c
        rw [hw]
        rfl
    | false =>
      simp only [hw, Bool.false_eq_true, if_false]
      rfl

/-- Every whitespace character of a collapsed string is a space. -/
theorem wsCollapse_wsOnly (s : List Char) : wsOnlySpace (TextNorm.wsCollapse s) := by
  induction s with
  | nil => intro c hc; cases hc
  | cons c rest ih =>
    unfold TextNorm.wsCollapse at *
    rw [wsRunsTo_cons]
    cases hw : jsWs c with
    | true =>
      cases hh : headIsWs rest with
      | true => simpa [hw, hh] using ih
      | false =>
        simp only [hw, hh, if_true, Bool.false_eq_true, if_false]
        intro x hx hwx
        rcases List.mem_cons.mp hx with he | hm
        · exact he
        · exact ih x hm hwx
    | false =>
      simp only [hw, Bool.false_eq_true, if_false]
      intro x hx hwx
      rcases List.mem_cons.mp hx with he | hm
      · rw [he] at hwx; rw [hwx] at hw; cases hw
      · exact ih x hm hwx

/-- A collapsed string has no two adjacent whitespace characters. -/
theorem wsCollapse_noAdj (s : List Char) : noAdjWs (TextNorm.wsCollapse s) := by
  induction s with
  | nil => exact List.chain'_nil
  | cons c rest ih =>
    unfold TextNorm.wsCollapse at *
    rw [wsRunsTo_cons]
    cases hw : jsWs c with
    | true =>
      cases hh : headIsWs rest with
      | true => simpa [hw, hh] using ih
      | false =>
        simp only [hw, hh, if_true, Bool.false_eq_true, if_false]
        refine List.chain'_cons'.mpr ⟨?_, ih⟩
        intro y hy
        have hhead : headIsWs (AIProcessor.wsRunsTo ' ' rest) = false := by
          rw [show AIProcessor.wsRunsTo ' ' rest = TextNorm.wsCollapse rest from rfl,
            wsCollapse_head, hh]
        cases hcol : AIProcessor.wsRunsTo ' ' rest with
        | nil => rw [hcol] at hy; cases hy
        | cons z t =>
          rw [hcol] at hy
          have hyz : z = y := by simpa using hy
          rw [hcol] at hhead
          have hz : jsWs z = false := hhead
          rintro ⟨_, hyw⟩
          rw [← hyz, hz] at hyw
          cases hyw
    | false =>
      simp only [hw, Bool.false_eq_true, if_false]
      refine List.chain'_cons'.mpr ⟨?_, ih⟩
      intro y _
      rintro ⟨hcw, _⟩
      rw [hw] at hcw
      cases hcw

/-- Collapsing is the identity on space-only, adjacency-free strings. -/
theorem wsCollapse_id (s : List Char) (h1 : wsOnlySpace s) (h2 : noAdjWs s) :
    TextNorm.wsCollapse s = s := by
  induction s with
  | nil => rfl
  | cons c rest ih =>
    unfold TextNorm.wsCollapse at *
    rw [wsRunsTo_cons]
    have ihr : AIProcessor.wsRunsTo ' ' rest = rest :=
      ih (fun x hx => h1 x (List.mem_cons_of_mem _ hx)) (List.Chain'.tail h2)
    cases hw : jsWs c with
    | true =>
      have hc : c = ' ' := h1 c (List.mem_cons_self _ _) hw
      have hh : headIsWs rest = false := by
        cases rest with
        | nil => rfl
        | cons b t =>
          have := (List.chain'_cons'.mp h2).1 b rfl
          show jsWs b = false
          by_contra hb
          exact this ⟨hw, by simpa using hb⟩
      simp only [hh, Bool.false_eq_true, if_true, if_false]
      rw [ihr, hc]
    | false =>
      simp only [hw, Bool.false_eq_true, if_false]
      rw [ihr]

/-- Collapsing maps plain strings to plain strings. -/
theorem wsCollapse_plain (s : List Char) (h : ∀ c ∈ s, plainChar c = true) :
    ∀ c ∈ TextNorm.wsCollapse s, plainChar c = true := by
  induction s with
  | nil => intro c hc; cases hc
  | cons c rest ih =>
    unfold TextNorm.wsCollapse at *
    rw [wsRunsTo_cons]
    have hrest := ih fun x hx => h x (List.mem_cons_of_mem _ hx)
    cases hw : jsWs c with
    | true =>
      cases hh : headIsWs rest with
      | true => simpa [hw, hh] using hrest
      | false =>
        simp only [hw, hh, if_true, Bool.false_eq_true, if_false]
        intro x hx
        rcases List.mem_cons.mp hx with he | hm
        · rw [he]; decide
        · exact hrest x hm
    | false =>
      simp only [hw, Bool.false_eq_true, if_false]
      intro x hx
      rcases List.mem_cons.mp hx with he | hm
      · rw [he]; exact h c (List.mem_cons_self _ _)
      · exact hrest x hm

/-- Characters of `trimL s` come from `s`. -/
theorem trimL_subset (s : List Char) : ∀ c ∈ TextNorm.trimL s, c ∈ s :=
  fun _ hc => (List.dropWhile_sublist _).subset hc

/-- Characters of `trimR s` come from `s`. -/
theorem trimR_subset (s : List Char) : ∀ c ∈ TextNorm.trimR s, c ∈ s := by
  intro c hc
  unfold TextNorm.trimR at hc
  rw [List.mem_reverse] at hc
  exact List.mem_reverse.mp ((List.dropWhile_sublist _).subset hc)

/-- `trimL` preserves the space-only property. -/
theorem trimL_wsOnly (s : List Char) (h : wsOnlySpace s) :
    wsOnlySpace (TextNorm.trimL s) :=
  fun c hc hw => h c (trimL_subset s c hc) hw

/-- `trimR` preserves the space-only property. -/
theorem trimR_wsOnly (s : List Char) (h : wsOnlySpace s) :
    wsOnlySpace (TextNorm.trimR s) :=
  fun c hc hw => h c (trimR_subset s c hc) hw

/-- `trimL` preserves adjacency-freeness. -/
theorem trimL_noAdj (s : List Char) (h : noAdjWs s) : noAdjWs (TextNorm.trimL s) :=
  List.Chain'.suffix h (List.dropWhile_suffix _)

/-- Adjacency-freeness survives reversal (the relation is symmetric). -/
theorem noAdj_reverse (s : List Char) (h : noAdjWs s) : noAdjWs s.reverse := by
  unfold noAdjWs at *
  rw [List.chain'_reverse]
  exact h.imp fun a b hab hp => hab ⟨hp.2, hp.1⟩

/-- `trimR` preserves adjacency-freeness. -/
theorem trimR_noAdj (s : List Char) (h : noAdjWs s) : noAdjWs (TextNorm.trimR s) :=
  noAdj_reverse _ (List.Chain'.suffix (noAdj_reverse s h) (List.dropWhile_suffix _))

/-- The head surviving a `dropWhile` fails the predicate. -/
theorem dropWhile_head_not (p : Char → Bool) (l : List Char) :
    ∀ c, (l.dropWhile p).head? = some c → p c = false := by
  induction l with
  | nil => intro c hc; cases hc
  | cons a t ih =>
    intro c hc
    rw [List.dropWhile_cons] at hc
    by_cases hp : p a = true
    · rw [if_pos hp] at hc
      exact ih c hc
    · rw [if_neg hp] at hc
      have ha : a = c := by simpa using hc
      rw [← ha]
      simpa using hp

/-- `dropWhile` is idempotent. -/
theorem dropWhile_idem (p : Char → Bool) (l : List Char) :
    (l.dropWhile p).dropWhile p = l.dropWhile p := by
  cases hd : l.dropWhile p with
  | nil => rfl
  | cons c t =>
    have hc : p c = false := dropWhile_head_not p l c (by rw [hd]; rfl)
    rw [List.dropWhile_cons]
    simp [hc]

/-- `trimL` is idempotent. -/
theorem trimL_idem (s : List Char) :
    TextNorm.trimL (TextNorm.trimL s) = TextNorm.trimL s :=
  dropWhile_idem _ s

/-- `trimR` is idempotent. -/
theorem trimR_idem (s : List Char) :
    TextNorm.trimR (TextNorm.trimR s) = TextNorm.trimR s := by
  unfold TextNorm.trimR
  rw [List.reverse_reverse]
  rw [dropWhile_idem]

/-- `trimR s` is a prefix of `s`. -/
theorem trimR_prefix (s : List Char) : (TextNorm.trimR s).IsPrefix s := by
  unfold TextNorm.trimR
  have h : List.dropWhile (fun c => jsWs c) s.reverse <:+ s.reverse :=
    List.dropWhile_suffix _
  have h2 := List.reverse_prefix.mpr h
  simpa using h2

/-- `trim` is idempotent. -/
theorem trim_trim (s : List Char) :
    TextNorm.trim (TextNorm.trim s) = TextNorm.trim s := by
  unfold TextNorm.trim
  have h1 : TextNorm.trimL (TextNorm.trimR (TextNorm.trimL s)) =
      TextNorm.trimR (TextNorm.trimL s) := by
    cases hR : TextNorm.trimR (TextNorm.trimL s) with
    | nil => rfl
    | cons c t =>
      obtain ⟨u, hu⟩ := trimR_prefix (TextNorm.trimL s)
      rw [hR] at hu
      have hhead : (TextNorm.trimL s).head? = some c := by
        rw [← hu]
        rfl
      have hc : jsWs c = false := dropWhile_head_not _ s c hhead
      unfold TextNorm.trimL
      rw [List.dropWhile_cons]
      simp [hc]
  rw [h1, trimR_idem]

/-- Characters of `trim s` come from `s`. -/
theorem trim_subset (s : List Char) : ∀ c ∈ TextNorm.trim s, c ∈ s :=
  fun c hc => trimL_subset s c (trimR_subset (TextNorm.trimL s) c hc)

/-- Collapsing after a trim of a collapsed string changes nothing. -/
theorem collapse_after_trim (s : List Char) :
    TextNorm.wsCollapse (TextNorm.trim (TextNorm.wsCollapse s)) =
      TextNorm.trim (TextNorm.wsCollapse s) :=
  wsCollapse_id _
    (trimR_wsOnly _ (trimL_wsOnly _ (wsCollapse_wsOnly s)))
    (trimR_noAdj _ (trimL_noAdj _ (wsCollapse_noAdj s)))

/-- The collapse-then-trim normal form is a fixed point of itself. -/
theorem trim_wsCollapse_idem (s : List Char) :
    TextNorm.trim (TextNorm.wsCollapse (TextNorm.trim (TextNorm.wsCollapse s))) =
      TextNorm.trim (TextNorm.wsCollapse s) := by
  rw [collapse_after_trim, trim_trim]

/-- A successful prefix match draws all its characters from the string. -/
theorem prefixL_mem (pat : List Char) :
    ∀ s, prefixL pat s = true → ∀ c ∈ pat, c ∈ s := by
  induction pat with
  | nil => intro s _ c hc; cases hc
  | cons a pa ih =>
    intro s h c hc
    cases s with
    | nil => simp [prefixL] at h
    | cons b sb =>
      unfold prefixL at h
      rw [Bool.and_eq_true] at h
      obtain ⟨hab, hrest⟩ := h
      rcases List.mem_cons.mp hc with he | hm
      · rw [he, eq_of_beq hab]
        exact List.mem_cons_self _ _
      · exact List.mem_cons_of_mem _ (ih sb hrest c hm)

/-- A literal replace whose pattern holds a non-plain character is the
identity on plain strings. -/
theorem replaceAllAux_id (pat rep : List Char) (c0 : Char) (hc0 : c0 ∈ pat)
    (hbad : plainChar c0 = false) :
    ∀ (fuel : Nat) (s : List Char), (∀ c ∈ s, plainChar c = true) →
      TextNorm.replaceAllAux pat rep fuel s = s := by
  intro fuel
  induction fuel with
  | zero => intro s _; rfl
  | succ f ih =>
    intro s hs
    cases s with
    | nil => rfl
    | cons c rest =>
      unfold TextNorm.replaceAllAux
      have hpre : prefixL pat (c :: rest) = false := by
        by_contra hp
        have hp2 : prefixL pat (c :: rest) = true := by simpa using hp
        have hmem := prefixL_mem pat (c :: rest) hp2 c0 hc0
        have := hs c0 hmem
        rw [hbad] at this
        cases this
      rw [hpre]
      simp only [Bool.false_and, Bool.false_eq_true, if_false]
      rw [ih rest fun x hx => hs x (List.mem_cons_of_mem _ hx)]

/-- See `replaceAllAux_id`. -/
theorem replaceAll_id (pat rep : List Char) (s : List Char) (c0 : Char)
    (hc0 : c0 ∈ pat) (hbad : plainChar c0 = false)
    (hs : ∀ c ∈ s, plainChar c = true) : TextNorm.replaceAll pat rep s = s :=
  replaceAllAux_id pat rep c0 hc0 hbad s.length s hs

/-- Tag stripping is the identity on strings without `<`. -/
theorem stripTagsAux_id :
    ∀ (fuel : Nat) (s : List Char), (∀ c ∈ s, plainChar c = true) →
      TextNorm.stripTagsAux fuel s = s := by
  intro fuel
  induction fuel with
  | zero => intro s _; rfl
  | succ f ih =>
    intro s hs
    cases s with
    | nil => rfl
    | cons c rest =>
      unfold TextNorm.stripTagsAux
      have hcne : (c == '<') = false := by
        rw [beq_eq_false_iff_ne]
        exact plain_ne c (hs c (List.mem_cons_self _ _)) '<' (by decide)
      rw [hcne]
      simp only [Bool.false_eq_true, if_false]
      rw [ih rest fun x hx => hs x (List.mem_cons_of_mem _ hx)]

/-- See `stripTagsAux_id`. -/
theorem stripTags_id (s : List Char) (hs : ∀ c ∈ s, plainChar c = true) :
    TextNorm.stripTags s = s :=
  stripTagsAux_id s.length s hs

/-- A pointwise-identity map is the identity. -/
theorem map_id_on (f : Char → Char) (s : List Char)
    (h : ∀ c ∈ s, f c = c) : s.map f = s := by
  induction s with
  | nil => rfl
  | cons c rest ih =>
    rw [List.map_cons, h c (List.mem_cons_self _ _),
      ih fun x hx => h x (List.mem_cons_of_mem _ hx)]

/-- Quote normalization does not touch plain characters. -/
theorem quoteMap1_plain (c : Char) (h : plainChar c = true) :
    TextNorm.quoteMap1 c = c := by
  unfold TextNorm.quoteMap1
  have h1 : (c == TextNorm.apost) = false := by
    rw [beq_eq_false_iff_ne]
    exact plain_ne c h TextNorm.apost (by decide)
  have h2 : (c == TextNorm.dquote) = false := by
    rw [beq_eq_false_iff_ne]
    exact plain_ne c h TextNorm.dquote (by decide)
  simp [h1, h2]

/-- Double-quote normalization does not touch plain characters. -/
theorem quoteMap2_plain (c : Char) (h : plainChar c = true) :
    TextNorm.quoteMap2 c = c := by
  unfold TextNorm.quoteMap2
  have h1 : (c == TextNorm.apost) = false := by
    rw [beq_eq_false_iff_ne]
    exact plain_ne c h TextNorm.apost (by decide)
  have h2 : (c == TextNorm.dquote) = false := by
    rw [beq_eq_false_iff_ne]
    exact plain_ne c h TextNorm.dquote (by decide)
  simp [h1, h2]

/-- Plain characters stay below every special codepoint. -/
theorem plain_toNat_le (c : Char) (h : plainChar c = true) : c.toNat ≤ 122 := by
  rcases plain_bounds c h with hb | hb | hb
  · omega
  · omega
  · rw [hb]; decide

/-- The non-breaking-space fix does not touch plain characters. -/
theorem nbspMap_plain (c : Char) (h : plainChar c = true) :
    TextNorm.nbspMap c = c := by
  unfold TextNorm.nbspMap
  have hle := plain_toNat_le c h
  have h1 : (c.toNat == 0xA0) = false := by
    rw [beq_eq_false_iff_ne]
    omega
  simp [h1]

/-- Trailing-dash removal is the identity on plain strings. -/
theorem dropTrailingDashWs_id (s : List Char)
    (h : ∀ c ∈ s, plainChar c = true) : TextNorm.dropTrailingDashWs s = s := by
  unfold TextNorm.dropTrailingDashWs
  cases hd : s.reverse.dropWhile (fun c => jsWs c) with
  | nil => rfl
  | cons c r2 =>
    have hcmem : c ∈ s := by
      have hm : c ∈ s.reverse.dropWhile (fun c => jsWs c) := by
        rw [hd]; exact List.mem_cons_self _ _
      exact List.mem_reverse.mp ((List.dropWhile_sublist _).subset hm)
    have hcne : c ≠ '-' := plain_ne c (h c hcmem) '-' (by decide)
    split
    · rename_i r2b heq
      rw [List.cons.injEq] at heq
      exact absurd heq.1 hcne
    · rfl

/-- Leading-dash removal is the identity on plain strings. -/
theorem dropLeadingDashWs_id (s : List Char)
    (h : ∀ c ∈ s, plainChar c = true) : TextNorm.dropLeadingDashWs s = s := by
  cases s with
  | nil => rfl
  | cons c rest =>
    have hcne : c ≠ '-' := plain_ne c (h c (List.mem_cons_self _ _)) '-' (by decide)
    unfold TextNorm.dropLeadingDashWs
    split
    · rename_i heq
      rw [List.cons.injEq] at heq
      exact absurd heq.1 hcne
    · rfl

/-- Zero-width removal is the identity on plain strings. -/
theorem removeZeroWidth_id (s : List Char)
    (h : ∀ c ∈ s, plainChar c = true) : TextNorm.removeZeroWidth s = s := by
  unfold TextNorm.removeZeroWidth
  apply List.filter_eq_self.mpr
  intro c hc
  have hle := plain_toNat_le c (h c hc)
  have h1 : (c.toNat == 0x200B) = false := by rw [beq_eq_false_iff_ne]; omega
  have h2 : (c.toNat == 0x200C) = false := by rw [beq_eq_false_iff_ne]; omega
  have h3 : (c.toNat == 0x200D) = false := by rw [beq_eq_false_iff_ne]; omega
  have h4 : (c.toNat == 0xFEFF) = false := by rw [beq_eq_false_iff_ne]; omega
  simp [h1, h2, h3, h4]

/-- On plain input the whole `cleanText` pipeline is whitespace collapse
followed by trim: every other stage is the identity. -/
theorem cleanText_plain (s : List Char) (h : ∀ c ∈ s, plainChar c = true) :
    TextNorm.cleanText s = TextNorm.trim (TextNorm.wsCollapse s) := by
  unfold TextNorm.cleanText
  by_cases hse : s.isEmpty
  · have hnil : s = [] := by
      cases s with
      | nil => rfl
      | cons a t => simp [List.isEmpty] at hse
    subst hnil
    rfl
  · rw [if_neg hse]
    rw [stripTags_id s h]
    rw [replaceAll_id "→".data "->".data s '→' (by decide) (by decide) h]
    rw [replaceAll_id "–".data "-".data s '–' (by decide) (by decide) h]
    rw [replaceAll_id "—".data "-".data s '—' (by decide) (by decide) h]
    rw [map_id_on TextNorm.quoteMap1 s fun c hc => quoteMap1_plain c (h c hc)]
    rw [map_id_on TextNorm.quoteMap2 s fun c hc => quoteMap2_plain c (h c hc)]
    rw [map_id_on TextNorm.nbspMap s fun c hc => nbspMap_plain c (h c hc)]
    rw [dropTrailingDashWs_id s h]
    rw [dropLeadingDashWs_id s h]
    rw [replaceAll_id "->".data " -> ".data s '-' (by decide) (by decide) h]
    have htplain : ∀ c ∈ TextNorm.trim (TextNorm.wsCollapse s), plainChar c = true :=
      fun c hc => wsCollapse_plain s h c (trim_subset _ c hc)
    unfold TextNorm.decodeHtmlEntities
    by_cases hte : (TextNorm.trim (TextNorm.wsCollapse s)).isEmpty
    · rw [if_pos hte]
      cases htn : TextNorm.trim (TextNorm.wsCollapse s) with
      | nil => rfl
      | cons a t => rw [htn] at hte; simp [List.isEmpty] at hte
    · rw [if_neg hte]
      rw [replaceAll_id "&nbsp;".data " ".data _ '&' (by decide) (by decide) htplain]
      rw [replaceAll_id "&amp;".data "&".data _ '&' (by decide) (by decide) htplain]
      rw [replaceAll_id "&gt;".data ">".data _ '&' (by decide) (by decide) htplain]
      rw [replaceAll_id "&lt;".data "<".data _ '&' (by decide) (by decide) htplain]
      rw [replaceAll_id "&quot;".data [TextNorm.dquote] _ '&' (by decide) (by decide) htplain]
      rw [replaceAll_id "&#39;".data [TextNorm.apost] _ '&' (by decide) (by decide) htplain]
      rw [replaceAll_id "&rsquo;".data [TextNorm.apost] _ '&' (by decide) (by decide) htplain]
      rw [replaceAll_id "&lsquo;".data [TextNorm.apost] _ '&' (by decide) (by decide) htplain]
      rw [replaceAll_id "&hellip;".data "...".data _ '&' (by decide) (by decide) htplain]
      rw [replaceAll_id "&mdash;".data "—".data _ '&' (by decide) (by decide) htplain]
      rw [replaceAll_id "&ndash;".data "–".data _ '&' (by decide) (by decide) htplain]
      rw [replaceAll_id "&prime;".data [TextNorm.apost] _ '&' (by decide) (by decide) htplain]
      rw [replaceAll_id "&Prime;".data [TextNorm.dquote] _ '&' (by decide) (by decide) htplain]
      rw [replaceAll_id "&ldquo;".data [TextNorm.dquote] _ '&' (by decide) (by decide) htplain]
      rw [replaceAll_id "&rdquo;".data [TextNorm.dquote] _ '&' (by decide) (by decide) htplain]
      rw [removeZeroWidth_id _ htplain]
      exact trim_wsCollapse_idem s

/-- C5 counterexample: `normalize` is not idempotent — decoding
`&lt;b&gt;` yields `<b>`, which a second pass strips as a tag. -/
theorem C5_counterexample :
    TextNorm.normalize (TextNorm.normalize "&lt;b&gt;") ≠
      TextNorm.normalize "&lt;b&gt;" := by decide

/-- C5 (amended): `normalize` is idempotent on every string consisting only
of plain characters (lowercase ASCII letters, digits and spaces); the
counterexample shows idempotence fails in general because entity decoding
runs after tag stripping and can introduce markup, dashes and quotes that
only a second pass would rewrite. -/
theorem C5_idempotent_plain (s : String) (h : ∀ c ∈ s.data, plainChar c = true) :
    TextNorm.normalize (TextNorm.normalize s) = TextNorm.normalize s := by
  unfold TextNorm.normalize
  congr 1
  show TextNorm.cleanText (TextNorm.cleanText s.data) = TextNorm.cleanText s.data
  rw [cleanText_plain _ h]
  have h2 : ∀ c ∈ TextNorm.trim (TextNorm.wsCollapse s.data), plainChar c = true :=
    fun c hc => wsCollapse_plain _ h c (trim_subset _ c hc)
  rw [cleanText_plain _ h2]
  exact trim_wsCollapse_idem s.data

/-- C5 witness: a plain string with internal whitespace runs. -/
theorem C5_idempotent_plain_witness :
    (∀ c ∈ ("hello   credit card  42").data, plainChar c = true) ∧
    TextNorm.normalize (TextNorm.normalize "hello   credit card  42") =
      TextNorm.normalize "hello   credit card  42" :=
  ⟨by decide, C5_idempotent_plain "hello   credit card  42" (by decide)⟩

/-- C6 counterexample: on the truthy non-string input `5`, `cleanText`
returns `"5"` (the `String(rawText)` coercion), not the empty string. -/
theorem C6_counterexample :
    TextNorm.cleanTextJS (TextNorm.JSVal.vnum 5) ≠ "" := by decide

/-- C6 (amended): `cleanText` never throws — it is total over arbitrary
JavaScript values — and returns the empty string exactly on falsy input
(null, undefined, false, 0, `""`); a truthy non-string value is coerced with
`String()` and cleaned like a string. -/
theorem C6_total (v : TextNorm.JSVal) :
    (TextNorm.jsTruthy v = false → TextNorm.cleanTextJS v = "") ∧
    (TextNorm.jsTruthy v = true →
      TextNorm.cleanTextJS v = TextNorm.normalize (TextNorm.jsToString v)) := by
  unfold TextNorm.cleanTextJS TextNorm.normalize
  constructor
  · intro h
    simp [h]
  · intro h
    simp [h]

/-- C6 witness: `null` is falsy and cleans to the empty string. -/
theorem C6_total_witness : TextNorm.cleanTextJS TextNorm.JSVal.vnull = "" :=
  (C6_total TextNorm.JSVal.vnull).1 rfl

end FlipCrawler
